import Mathlib

/-!
Verification of the Smart Medicine Box data service against its
natural-language specification.

The definitions below are a shallow embedding of the TypeScript source:

* `dataService` (localStorage-backed CRUD and the alert/scheduling engine,
  `src/services/dataService.ts`), and
* `ESP32Service` (the device HTTP client, `src/services/esp32Service.ts`).

Modelling conventions:

* The persisted localStorage state is an explicit `AppState` record
  (`boxes` collection and `alerts` collection); every operation takes the
  state and returns the updated state.
* Wall-clock instants are `Int` milliseconds (a JavaScript `Date` value);
  the local-time rendering `Date.toDateString()` used by the engine's
  de-duplication key is an abstract parameter `dateOf : Int → String`,
  and the current minute `Date.toTimeString().slice(0, 5)` is the string
  parameter `currentTime`.
* `Math.random().toString(36).substr(2, 9)` id generation is modelled by a
  threaded counter (ids are opaque and never inspected by the logic) or,
  for single-shot CRUD operations, an explicit fresh-id argument.
* Promise rejection (a thrown `Error`) is `Except.error`; each fallible
  operation returns the (possibly unchanged) persisted state together with
  the `Except` outcome.
* JavaScript numbers holding pill counts are `Int`; the low-stock
  `daysRemaining` division is rational division, which agrees with the
  float comparison on all integer inputs used by the guard.
-/

inductive AlertType where
  | low_count
  | refill_needed
  | schedule_reminder
  | medicine_time
  | out_of_stock
  | sync_success
deriving DecidableEq, Repr

structure Medicine where
  id : String
  name : String
  timesPerDay : Int
  totalCount : Int
  currentCount : Int
  customMessage : Option String
  scheduleTime : String
  createdAt : Int
  updatedAt : Int
deriving DecidableEq, Repr

structure MedicineBox where
  id : String
  name : String
  boxId : String
  ipAddress : String
  userId : String
  medicines : List Medicine
  isConnected : Bool
  lastSyncAt : Option Int
  createdAt : Int
  updatedAt : Int
deriving DecidableEq, Repr

structure Alert where
  id : String
  medicineId : String
  medicineName : String
  boxName : String
  type : AlertType
  message : String
  isRead : Bool
  createdAt : Int
deriving DecidableEq, Repr

/-- The persisted localStorage state: the `smart_medicine_boxes` key and the
`smart_medicine_alerts` key. -/
structure AppState where
  boxes : List MedicineBox
  alerts : List Alert
deriving DecidableEq, Repr

/-! ### String helpers

`String.prototype.split(',')`, `String.prototype.trim()` and
`String.prototype.includes` are modelled by explicit recursion over the
character list so that every use is a plain executable definition. -/

/-- JavaScript `needle` is a prefix of `hay` (character lists). -/
def isPrefixChars : List Char → List Char → Bool
  | [], _ => true
  | _ :: _, [] => false
  | a :: as, b :: bs => a = b && isPrefixChars as bs

/-- JavaScript `hay.includes(needle)` on character lists. -/
def hasSubChars (needle : List Char) : List Char → Bool
  | [] => needle.isEmpty
  | c :: rest => isPrefixChars needle (c :: rest) || hasSubChars needle rest

/-- `message.includes(token)` from the de-duplication check. -/
def strIncludes (hay needle : String) : Bool :=
  hasSubChars needle.data hay.data

/-- `String.prototype.split(',')`: split a character list at commas,
keeping empty segments. -/
def splitCommaAux (acc : List Char) : List Char → List (List Char)
  | [] => [acc.reverse]
  | c :: rest => if c = ',' then acc.reverse :: splitCommaAux [] rest else splitCommaAux (c :: acc) rest

/-- Whitespace characters removed by `String.prototype.trim()`. -/
def isWsChar (c : Char) : Bool :=
  c = ' ' || c = '\t' || c = '\n' || c = '\r'

/-- `String.prototype.trim()` on a character list. -/
def trimChars (l : List Char) : List Char :=
  ((l.dropWhile isWsChar).reverse.dropWhile isWsChar).reverse

/-- `medicine.scheduleTime.split(',').map(time => time.trim())`. -/
def tokensOf (med : Medicine) : List String :=
  (splitCommaAux [] med.scheduleTime.data).map (fun cs => String.mk (trimChars cs))

/-- `medicine.customMessage || default`: JavaScript `||` falls through on the
empty string as well as on a missing value. -/
def orDefaultMsg (o : Option String) (d : String) : String :=
  match o with
  | some s => if s = "" then d else s
  | none => d

/-- Fresh alert id drawn from the threaded counter (the source uses
`Math.random().toString(36).substr(2, 9)`; ids are opaque to all logic). -/
def freshId (n : Nat) : String :=
  toString n

/-! ### Alert construction and de-duplication predicates (dataService) -/

/-- Message of a `medicine_time` alert. -/
def timeAlertMsg (med : Medicine) (token : String) : String :=
  "Time to take your " ++ med.name ++ " (" ++ token ++ "). " ++
    orDefaultMsg med.customMessage "Take as prescribed."

/-- Message of a `low_count` alert. -/
def lowMsg (name : String) (count : Int) : String :=
  name ++ " is running low (" ++ toString count ++ " pills remaining). Time to refill!"

/-- Message of an `out_of_stock` alert. -/
def oosMsg (name : String) : String :=
  name ++ " is out of stock! Please refill immediately."

/-- The `checkMedicineTimes` de-duplication check: an existing alert blocks a
dose for `medId` at schedule `token` when it is a `medicine_time` alert of the
same medicine, created on the current calendar date, whose message contains
the schedule token. -/
def isDupTimeAlert (dateOf : Int → String) (currentDate : String) (medId token : String)
    (a : Alert) : Bool :=
  a.medicineId == medId && a.type == AlertType.medicine_time &&
    dateOf a.createdAt == currentDate && strIncludes a.message token

/-- The dose-tick low-stock de-duplication check: an unread `low_count` alert
for the medicine. -/
def isUnreadLowAlert (medId : String) (a : Alert) : Bool :=
  a.medicineId == medId && a.type == AlertType.low_count && !a.isRead

/-- The `checkLowMedicines` de-duplication check: any `low_count` alert for
the medicine, read or unread (`!alert.isRead` is commented out in the
source). -/
def isAnyLowAlert (medId : String) (a : Alert) : Bool :=
  a.medicineId == medId && a.type == AlertType.low_count

/-! ### The dose-evaluation tick (`dataService.checkMedicineTimes`) -/

/-- Accumulator threaded through `checkMedicineTimes`: the full alert store,
the list of newly created alerts, and the fresh-id counter. -/
structure TickAcc where
  alerts : List Alert
  newAlerts : List Alert
  ctr : Nat
deriving Repr

/-- Append a freshly created alert to both the store and the new-alert
list (the source pushes to `alerts` and `newAlerts` together). -/
def pushAlert (ts : TickAcc) (a : Alert) : TickAcc :=
  { alerts := ts.alerts ++ [a], newAlerts := ts.newAlerts ++ [a], ctr := ts.ctr + 1 }

/-- A `medicine_time` alert as built by `checkMedicineTimes`. -/
def mkTimeAlert (now : Int) (ctr : Nat) (boxName : String) (med : Medicine) (token : String) : Alert :=
  { id := freshId ctr
    medicineId := med.id
    medicineName := med.name
    boxName := boxName
    type := AlertType.medicine_time
    message := timeAlertMsg med token
    isRead := false
    createdAt := now }

/-- A `low_count` alert as built by the engine (count is the post-decrement
count in `checkMedicineTimes`, the stored count elsewhere). -/
def mkLowAlert (now : Int) (ctr : Nat) (boxName : String) (med : Medicine) (count : Int) : Alert :=
  { id := freshId ctr
    medicineId := med.id
    medicineName := med.name
    boxName := boxName
    type := AlertType.low_count
    message := lowMsg med.name count
    isRead := false
    createdAt := now }

/-- An `out_of_stock` alert as built by `checkMedicineTimes`. -/
def mkOosAlert (now : Int) (ctr : Nat) (boxName : String) (med : Medicine) : Alert :=
  { id := freshId ctr
    medicineId := med.id
    medicineName := med.name
    boxName := boxName
    type := AlertType.out_of_stock
    message := oosMsg med.name
    isRead := false
    createdAt := now }

/-- One schedule token of one medicine inside `checkMedicineTimes`: if the
token equals the current minute, the count is positive, and no blocking
`medicine_time` alert exists, deduct one dose (floored at zero), emit the
`medicine_time` alert, then the conditional `low_count` and `out_of_stock`
alerts. -/
def tokenStep (dateOf : Int → String) (currentTime currentDate : String) (now : Int)
    (boxName : String) (acc : Medicine × TickAcc) (token : String) : Medicine × TickAcc :=
  if token = currentTime ∧ 0 < acc.1.currentCount then
    if acc.2.alerts.any (isDupTimeAlert dateOf currentDate acc.1.id token) then acc
    else
      let med : Medicine :=
        { acc.1 with currentCount := max 0 (acc.1.currentCount - 1), updatedAt := now }
      let ts1 : TickAcc := pushAlert acc.2 (mkTimeAlert now acc.2.ctr boxName acc.1 token)
      let ts2 : TickAcc :=
        if med.currentCount ≤ 3 ∧ 0 < med.currentCount then
          if ts1.alerts.any (isUnreadLowAlert med.id) then ts1
          else pushAlert ts1 (mkLowAlert now ts1.ctr boxName med med.currentCount)
        else ts1
      let ts3 : TickAcc :=
        if med.currentCount = 0 then pushAlert ts2 (mkOosAlert now ts2.ctr boxName med)
        else ts2
      (med, ts3)
  else acc

/-- One medicine inside `checkMedicineTimes`: fold its schedule tokens. -/
def medStep (dateOf : Int → String) (currentTime currentDate : String) (now : Int)
    (boxName : String) (acc : List Medicine × TickAcc) (med : Medicine) :
    List Medicine × TickAcc :=
  let r := (tokensOf med).foldl (tokenStep dateOf currentTime currentDate now boxName) (med, acc.2)
  (acc.1 ++ [r.1], r.2)

/-- One box inside `checkMedicineTimes`: fold its medicines. -/
def boxStep (dateOf : Int → String) (currentTime currentDate : String) (now : Int)
    (acc : List MedicineBox × TickAcc) (box : MedicineBox) : List MedicineBox × TickAcc :=
  let r := box.medicines.foldl (medStep dateOf currentTime currentDate now box.name) ([], acc.2)
  (acc.1 ++ [{ box with medicines := r.1 }], r.2)

/-- Result of one `checkMedicineTimes` run: the saved boxes collection, the
saved alerts collection, the returned list of new alerts, and the advanced
fresh-id counter. -/
structure TickResult where
  boxes : List MedicineBox
  alerts : List Alert
  newAlerts : List Alert
  ctr : Nat
deriving Repr

namespace dataService

/-- `dataService.checkMedicineTimes`: walk every medicine of every box,
compare each schedule token against the current minute, deduct due doses and
emit de-duplicated alerts; persist both collections. -/
def checkMedicineTimes (dateOf : Int → String) (currentTime currentDate : String) (now : Int)
    (ctr : Nat) (boxes : List MedicineBox) (alerts : List Alert) : TickResult :=
  let r := boxes.foldl (boxStep dateOf currentTime currentDate now)
      ([], { alerts := alerts, newAlerts := [], ctr := ctr })
  { boxes := r.1, alerts := r.2.alerts, newAlerts := r.2.newAlerts, ctr := r.2.ctr }

end dataService

/-! ### The low-stock tick (`dataService.checkLowMedicines`) -/

/-- `daysRemaining = medicine.currentCount / medicine.timesPerDay` (number
division in the source, rational division here). -/
def daysRemaining (med : Medicine) : ℚ :=
  (med.currentCount : ℚ) / (med.timesPerDay : ℚ)

/-- The `checkLowMedicines` guard: `daysRemaining <= 3 && daysRemaining > 0`. -/
def isLowEligible (med : Medicine) : Prop :=
  daysRemaining med ≤ 3 ∧ 0 < daysRemaining med

instance decIsLowEligible (med : Medicine) : Decidable (isLowEligible med) :=
  inferInstanceAs (Decidable (daysRemaining med ≤ 3 ∧ 0 < daysRemaining med))

/-- Accumulator for `checkLowMedicines` (alert store, new alerts, counter). -/
structure LowAcc where
  alerts : List Alert
  newAlerts : List Alert
  ctr : Nat
deriving Repr

/-- One medicine inside `checkLowMedicines`. -/
def lowMedStep (now : Int) (boxName : String) (acc : LowAcc) (med : Medicine) : LowAcc :=
  if isLowEligible med then
    if acc.alerts.any (isAnyLowAlert med.id) then acc
    else
      { alerts := acc.alerts ++ [mkLowAlert now acc.ctr boxName med med.currentCount]
        newAlerts := acc.newAlerts ++ [mkLowAlert now acc.ctr boxName med med.currentCount]
        ctr := acc.ctr + 1 }
  else acc

/-- One box inside `checkLowMedicines`. -/
def lowBoxStep (now : Int) (acc : LowAcc) (box : MedicineBox) : LowAcc :=
  box.medicines.foldl (lowMedStep now box.name) acc

namespace dataService

/-- `dataService.checkLowMedicines`: emit a `low_count` alert for every
medicine with `0 < daysRemaining ≤ 3` that has no existing `low_count` alert
(read or unread); only the alerts collection is saved back. -/
def checkLowMedicines (now : Int) (ctr : Nat) (s : AppState) : AppState × List Alert × Nat :=
  let r := s.boxes.foldl (lowBoxStep now) { alerts := s.alerts, newAlerts := [], ctr := ctr }
  ({ boxes := s.boxes, alerts := r.alerts }, r.newAlerts, r.ctr)

/-! ### Alert reads and read-state (`getAlerts`, `markAlertAsRead`) -/

/-- `dataService.getAlerts`: drop alerts older than 24 hours, persist the
pruned set only when its length changed, and return the pruned list.
Result: (returned list, persisted store, whether a write happened). -/
def getAlerts (now : Int) (alerts : List Alert) : List Alert × List Alert × Bool :=
  let recentAlerts := alerts.filter (fun a => now - 86400000 < a.createdAt)
  if recentAlerts.length ≠ alerts.length then (recentAlerts, recentAlerts, true)
  else (recentAlerts, alerts, false)

end dataService

/-- Set `isRead := true` on the first alert with the given id (JavaScript
`alerts.find(...)` returns the first match, and the source mutates it in
place). -/
def setReadFirst (alertId : String) : List Alert → List Alert
  | [] => []
  | a :: rest =>
    if a.id = alertId then { a with isRead := true } :: rest
    else a :: setReadFirst alertId rest

namespace dataService

/-- `dataService.markAlertAsRead`: find the alert, set its `isRead`, then
persist `alerts.filter(a => !a.isRead)` — i.e. drop every read alert from the
store.  When no alert has the id, nothing is saved. -/
def markAlertAsRead (alertId : String) (alerts : List Alert) : List Alert :=
  if alerts.any (fun a => a.id == alertId) then
    (setReadFirst alertId alerts).filter (fun a => !a.isRead)
  else alerts

end dataService

/-! ### Box and medicine CRUD (`dataService`) -/

/-- `findIndex`-then-update for `updateMedicineBox`: replace the first box
with the given id by `{ ...box, ...updates, updatedAt: now }` (the merge of
the partial update is the function `upd`). -/
def updateBoxIn (id : String) (upd : MedicineBox → MedicineBox) (now : Int) :
    List MedicineBox → Option (List MedicineBox × MedicineBox)
  | [] => none
  | b :: rest =>
    if b.id = id then
      some ({ upd b with updatedAt := now } :: rest, { upd b with updatedAt := now })
    else
      match updateBoxIn id upd now rest with
      | none => none
      | some (rest', r) => some (b :: rest', r)

/-- `findIndex`-then-push for `addMedicine`: append the new medicine to the
first box with the given id and refresh that box's `updatedAt`; also report
the box name (used in the starting-low alert). -/
def addMedToBoxes (boxId : String) (med : Medicine) (now : Int) :
    List MedicineBox → Option (List MedicineBox × String)
  | [] => none
  | b :: rest =>
    if b.id = boxId then
      some ({ b with medicines := b.medicines ++ [med], updatedAt := now } :: rest, b.name)
    else
      match addMedToBoxes boxId med now rest with
      | none => none
      | some (rest', nm) => some (b :: rest', nm)

/-- `findIndex`-then-update on a medicine list for `updateMedicine`. -/
def updateMedIn (medicineId : String) (upd : Medicine → Medicine) (now : Int) :
    List Medicine → Option (List Medicine × Medicine)
  | [] => none
  | m :: rest =>
    if m.id = medicineId then
      some ({ upd m with updatedAt := now } :: rest, { upd m with updatedAt := now })
    else
      match updateMedIn medicineId upd now rest with
      | none => none
      | some (rest', r) => some (m :: rest', r)

/-- The two-level lookup of `updateMedicine`: box not found is a hard error,
then medicine not found inside the first matching box is a hard error. -/
def updateMedicineInBoxes (boxId medicineId : String) (upd : Medicine → Medicine) (now : Int) :
    List MedicineBox → Except String (List MedicineBox × Medicine)
  | [] => Except.error "Medicine box not found"
  | b :: rest =>
    if b.id = boxId then
      match updateMedIn medicineId upd now b.medicines with
      | none => Except.error "Medicine not found"
      | some (meds', m') =>
        Except.ok ({ b with medicines := meds', updatedAt := now } :: rest, m')
    else
      match updateMedicineInBoxes boxId medicineId upd now rest with
      | Except.error e => Except.error e
      | Except.ok (rest', m') => Except.ok (b :: rest', m')

/-- Remove a medicine (by id) from the first box with the given box id,
refreshing that box's `updatedAt`; `none` when the box does not exist.  The
source filters the medicine list without checking that the medicine id was
present. -/
def deleteMedicineInBoxes (boxId medicineId : String) (now : Int) :
    List MedicineBox → Option (List MedicineBox)
  | [] => none
  | b :: rest =>
    if b.id = boxId then
      some ({ b with
              medicines := b.medicines.filter (fun m => !(m.id == medicineId))
              updatedAt := now } :: rest)
    else
      match deleteMedicineInBoxes boxId medicineId now rest with
      | none => none
      | some rest' => some (b :: rest')

namespace dataService

/-- `dataService.updateMedicineBox`: not-found throws, otherwise merge the
updates and refresh `updatedAt`. -/
def updateMedicineBox (id : String) (upd : MedicineBox → MedicineBox) (now : Int)
    (s : AppState) : AppState × Except String MedicineBox :=
  match updateBoxIn id upd now s.boxes with
  | none => (s, Except.error "Medicine box not found")
  | some (boxes', b') => ({ s with boxes := boxes' }, Except.ok b')

/-- `dataService.deleteMedicineBox`: a missing box id only logs a warning and
returns (no rejection); otherwise delete the box and every alert whose
`boxName` matches the deleted box's name or whose `medicineId` belongs to a
medicine nested in it. -/
def deleteMedicineBox (id : String) (s : AppState) : AppState × Except String Unit :=
  match s.boxes.find? (fun b => b.id == id) with
  | none => (s, Except.ok ())
  | some boxToDelete =>
    ({ boxes := s.boxes.filter (fun b => !(b.id == id))
       alerts := s.alerts.filter (fun a =>
         !(a.boxName == boxToDelete.name ||
           boxToDelete.medicines.any (fun m => m.id == a.medicineId))) },
     Except.ok ())

/-- `dataService.addMedicine`: not-found throws; otherwise push the new
medicine and, when its starting count is in (0, 3], emit a `low_count` alert
unless an unread one already exists. -/
def addMedicine (boxId : String) (medData : Medicine) (newId lowId : String) (now : Int)
    (s : AppState) : AppState × Except String Medicine :=
  let newMedicine : Medicine := { medData with id := newId, createdAt := now, updatedAt := now }
  match addMedToBoxes boxId newMedicine now s.boxes with
  | none => (s, Except.error "Medicine box not found")
  | some (boxes', boxName) =>
    let alerts' :=
      if newMedicine.currentCount ≤ 3 ∧ 0 < newMedicine.currentCount then
        if s.alerts.any (isUnreadLowAlert newMedicine.id) then s.alerts
        else s.alerts ++
          [{ mkLowAlert now 0 boxName newMedicine newMedicine.currentCount with id := lowId }]
      else s.alerts
    ({ boxes := boxes', alerts := alerts' }, Except.ok newMedicine)

/-- `dataService.updateMedicine`: box not found or medicine not found throws;
otherwise merge the updates, refresh both `updatedAt` stamps. -/
def updateMedicine (boxId medicineId : String) (upd : Medicine → Medicine) (now : Int)
    (s : AppState) : AppState × Except String Medicine :=
  match updateMedicineInBoxes boxId medicineId upd now s.boxes with
  | Except.error e => (s, Except.error e)
  | Except.ok (boxes', m') => ({ s with boxes := boxes' }, Except.ok m')

/-- `dataService.deleteMedicine`: box not found throws; otherwise filter the
medicine out of the box and delete every alert with that `medicineId`. -/
def deleteMedicine (boxId medicineId : String) (now : Int) (s : AppState) :
    AppState × Except String Unit :=
  match deleteMedicineInBoxes boxId medicineId now s.boxes with
  | none => (s, Except.error "Medicine box not found")
  | some boxes' =>
    ({ boxes := boxes', alerts := s.alerts.filter (fun a => !(a.medicineId == medicineId)) },
     Except.ok ())

end dataService

/-! ### The device HTTP client (`ESP32Service`) -/

/-- Outcome of the underlying `fetch`: an HTTP response with a status code,
a network error (rejected promise), or expiry of the `AbortSignal.timeout`. -/
inductive FetchOutcome where
  | response (status : Nat)
  | networkError
  | timeout
deriving DecidableEq, Repr

/-- `Response.ok`: status in the range 200–299. -/
def respOk (status : Nat) : Bool :=
  decide (200 ≤ status) && decide (status < 300)

/-- A `{ success, message }` pair returned by every `ESP32Service` call. -/
structure ESPResult where
  success : Bool
  message : String
deriving DecidableEq, Repr

namespace ESP32Service

/-- `ESP32Service.disconnect`: `success := response.ok` when a response
arrives; the catch branch (network error or timeout) reports success. -/
def disconnect (outcome : FetchOutcome) : ESPResult :=
  match outcome with
  | FetchOutcome.response status =>
    { success := respOk status
      message := if respOk status then "Disconnected successfully" else "Disconnect signal failed" }
  | FetchOutcome.networkError => { success := true, message := "Disconnected (device unreachable)" }
  | FetchOutcome.timeout => { success := true, message := "Disconnected (device unreachable)" }

end ESP32Service

/-! ### Derived predicates used in the theorem statements -/

/-- The `medicine_time` de-duplication key of the claim, exactly as the code
checks it: some stored alert blocks the dose for `medId` at the current
minute on the current date. -/
def Blockedid (dateOf : Int → String) (currentDate currentTime medId : String)
    (A : List Alert) : Prop :=
  ∃ a ∈ A, isDupTimeAlert dateOf currentDate medId currentTime a = true

instance decBlockedid (dateOf : Int → String) (currentDate currentTime medId : String)
    (A : List Alert) : Decidable (Blockedid dateOf currentDate currentTime medId A) :=
  inferInstanceAs (Decidable (∃ a ∈ A, _ = true))

/-- The per-medicine firing condition of one `checkMedicineTimes` run against
the alert store `A`: some schedule token equals the current minute, the count
is positive, and no stored alert blocks the dose. -/
def Fires (dateOf : Int → String) (currentDate currentTime : String) (T : List String)
    (med : Medicine) (A : List Alert) : Prop :=
  currentTime ∈ T ∧ 0 < med.currentCount ∧
    ¬ Blockedid dateOf currentDate currentTime med.id A

/-- The dose deduction applied by a firing tick (on a positive count the
source's `Math.max(0, c - 1)` is `c - 1`). -/
def decM (now : Int) (med : Medicine) : Medicine :=
  { med with currentCount := med.currentCount - 1, updatedAt := now }

/-- All medicine ids nested anywhere in a boxes collection. -/
def allMedIds (boxes : List MedicineBox) : List String :=
  (boxes.flatMap (fun b => b.medicines)).map (fun m => m.id)

/-! ### Concrete sample data used by the witnesses -/

/-- A constant calendar-date function for witnesses. -/
def dateD : Int → String := fun _ => "D"

/-- Sample medicine with four pills left, due at 08:00. -/
def medA : Medicine :=
  ⟨"m1", "Vitamin D", 1, 30, 4, none, "08:00", 0, 0⟩

/-- Sample medicine with one pill left, due at 08:00. -/
def medB : Medicine :=
  ⟨"m2", "Melatonin", 1, 30, 1, none, "08:00", 0, 0⟩

/-- Sample medicine with two pills left, due at 09:00. -/
def medC : Medicine :=
  ⟨"m3", "Aspirin", 1, 30, 2, none, "09:00", 0, 0⟩

/-- Sample box holding `medA`. -/
def boxA : MedicineBox :=
  ⟨"b1", "Kitchen Medicine Box", "ESP32_001", "192.168.1.101", "1", [medA], true, none, 0, 0⟩

/-- Sample box holding `medC`. -/
def boxC : MedicineBox :=
  ⟨"b3", "Bedroom Box", "ESP32_002", "192.168.1.102", "1", [medC], true, none, 0, 0⟩

/-- A sample unread alert. -/
def alertU : Alert :=
  ⟨"a1", "m9", "Old Med", "Kitchen Medicine Box", AlertType.low_count, "running low", false, 0⟩

/-- The empty persisted state. -/
def stateEmpty : AppState := ⟨[], []⟩

/-- Sample state with one box and one unread alert. -/
def stateC : AppState := ⟨[boxC], [alertU]⟩

/-- Sample state with one box and no alerts. -/
def stateC2 : AppState := ⟨[boxC], []⟩

/-! ## Lemmas -/

/-! ### Substring facts -/

theorem isPrefixChars_append (l r : List Char) : isPrefixChars l (l ++ r) = true := by
  induction l with
  | nil => rfl
  | cons a as ih => simp [isPrefixChars, ih]

theorem hasSubChars_of_isPrefixChars (n h : List Char) (H : isPrefixChars n h = true) :
    hasSubChars n h = true := by
  cases h with
  | nil =>
    cases n with
    | nil => rfl
    | cons a as => simp [isPrefixChars] at H
  | cons c rest => simp [hasSubChars, H]

theorem hasSubChars_cons (n h : List Char) (c : Char) (H : hasSubChars n h = true) :
    hasSubChars n (c :: h) = true := by
  simp [hasSubChars, H]

theorem hasSubChars_append_right (n p h : List Char) (H : hasSubChars n h = true) :
    hasSubChars n (p ++ h) = true := by
  induction p with
  | nil => simpa using H
  | cons c cs ih => simpa using hasSubChars_cons n (cs ++ h) c ih

theorem string_data_append (s t : String) : (s ++ t).data = s.data ++ t.data := by
  cases s
  cases t
  rfl

theorem strIncludes_of_data (hay t : String) (p q : List Char)
    (H : hay.data = p ++ (t.data ++ q)) : strIncludes hay t = true := by
  unfold strIncludes
  rw [H]
  exact hasSubChars_append_right _ _ _
    (hasSubChars_of_isPrefixChars _ _ (isPrefixChars_append t.data q))

theorem timeAlertMsg_includes (med : Medicine) (token : String) :
    strIncludes (timeAlertMsg med token) token = true := by
  apply strIncludes_of_data _ _ ("Time to take your " ++ med.name ++ " (").data
    ("). " ++ orDefaultMsg med.customMessage "Take as prescribed.").data
  unfold timeAlertMsg
  simp only [string_data_append, List.append_assoc]

/-! ### tokenStep branch behaviour -/

section EngineLemmas

variable (dateOf : Int → String) (currentTime currentDate : String) (now : Int) (boxName : String)

theorem tokenStep_not_time (acc : Medicine × TickAcc) (token : String)
    (h : token ≠ currentTime) :
    tokenStep dateOf currentTime currentDate now boxName acc token = acc := by
  unfold tokenStep
  rw [if_neg]
  intro hc
  exact h hc.1

theorem tokenStep_nonpos (acc : Medicine × TickAcc) (token : String)
    (h : acc.1.currentCount ≤ 0) :
    tokenStep dateOf currentTime currentDate now boxName acc token = acc := by
  unfold tokenStep
  rw [if_neg]
  intro hc
  omega

theorem tokenStep_blocked (acc : Medicine × TickAcc) (token : String)
    (h : acc.2.alerts.any (isDupTimeAlert dateOf currentDate acc.1.id token) = true) :
    tokenStep dateOf currentTime currentDate now boxName acc token = acc := by
  unfold tokenStep
  by_cases hg : token = currentTime ∧ 0 < acc.1.currentCount
  · rw [if_pos hg, if_pos h]
  · rw [if_neg hg]

theorem tokenStep_fires (med : Medicine) (ts : TickAcc) (token : String)
    (Hdate : dateOf now = currentDate)
    (h1 : token = currentTime) (h2 : 0 < med.currentCount)
    (h3 : ts.alerts.any (isDupTimeAlert dateOf currentDate med.id token) = false) :
    ∃ L : List Alert,
      tokenStep dateOf currentTime currentDate now boxName (med, ts) token =
        (decM now med,
          { alerts := ts.alerts ++ L, newAlerts := ts.newAlerts ++ L, ctr := ts.ctr + L.length }) ∧
      (∀ a ∈ L, a.medicineId = med.id) ∧
      (∃ a ∈ L, isDupTimeAlert dateOf currentDate med.id currentTime a = true) := by
  have hmax : max 0 (med.currentCount - 1) = med.currentCount - 1 := by omega
  have hdup : isDupTimeAlert dateOf currentDate med.id currentTime
      (mkTimeAlert now ts.ctr boxName med token) = true := by
    unfold isDupTimeAlert mkTimeAlert
    simp only [h1, Hdate, timeAlertMsg_includes med currentTime]
    simp
  have hmed : ({ med with currentCount := max 0 (med.currentCount - 1), updatedAt := now }
      : Medicine) = decM now med := by
    unfold decM
    rw [hmax]
  unfold tokenStep
  rw [if_pos ⟨h1, h2⟩]
  simp only [h3]
  rw [if_neg (by simp)]
  simp only [hmax, hmed]
  by_cases hlow : med.currentCount - 1 ≤ 3 ∧ 0 < med.currentCount - 1
  · rw [if_pos hlow, if_neg (by omega)]
    by_cases hunread : (pushAlert ts (mkTimeAlert now ts.ctr boxName med token)).alerts.any
        (isUnreadLowAlert med.id) = true
    · rw [if_pos hunread]
      refine ⟨[mkTimeAlert now ts.ctr boxName med token], ?_, ?_, ?_⟩
      · unfold pushAlert
        rfl
      · intro a ha
        simp at ha
        subst ha
        rfl
      · exact ⟨mkTimeAlert now ts.ctr boxName med token, by simp, hdup⟩
    · rw [if_neg hunread]
      refine ⟨[mkTimeAlert now ts.ctr boxName med token,
               mkLowAlert now (pushAlert ts (mkTimeAlert now ts.ctr boxName med token)).ctr
                 boxName (decM now med) (med.currentCount - 1)],
              ?_, ?_, ?_⟩
      · unfold pushAlert
        simp [decM]
      · intro a ha
        simp at ha
        rcases ha with ha | ha <;> subst ha <;> rfl
      · exact ⟨mkTimeAlert now ts.ctr boxName med token, by simp, hdup⟩
  · rw [if_neg hlow]
    by_cases hzero : med.currentCount - 1 = 0
    · rw [if_pos hzero]
      refine ⟨[mkTimeAlert now ts.ctr boxName med token,
               mkOosAlert now (pushAlert ts (mkTimeAlert now ts.ctr boxName med token)).ctr
                 boxName (decM now med)],
              ?_, ?_, ?_⟩
      · unfold pushAlert
        simp [decM]
      · intro a ha
        simp at ha
        rcases ha with ha | ha <;> subst ha <;> rfl
      · exact ⟨mkTimeAlert now ts.ctr boxName med token, by simp, hdup⟩
    · rw [if_neg hzero]
      refine ⟨[mkTimeAlert now ts.ctr boxName med token], ?_, ?_, ?_⟩
      · unfold pushAlert
        rfl
      · intro a ha
        simp at ha
        subst ha
        rfl
      · exact ⟨mkTimeAlert now ts.ctr boxName med token, by simp, hdup⟩

end EngineLemmas

/-! ### Token-fold behaviour for one medicine -/

section FoldLemmas

variable (dateOf : Int → String) (currentTime currentDate : String) (now : Int) (boxName : String)

theorem blockedid_any (medId : String) (A : List Alert) :
    Blockedid dateOf currentDate currentTime medId A ↔
      A.any (isDupTimeAlert dateOf currentDate medId currentTime) = true := by
  unfold Blockedid
  exact (List.any_eq_true).symm

theorem blockedid_append (medId : String) (A B : List Alert)
    (h : Blockedid dateOf currentDate currentTime medId A) :
    Blockedid dateOf currentDate currentTime medId (A ++ B) := by
  obtain ⟨a, ha, hp⟩ := h
  exact ⟨a, List.mem_append_left _ ha, hp⟩

theorem tokfold_inert (T : List String) (med : Medicine) (ts : TickAcc)
    (h : currentTime ∉ T ∨ med.currentCount ≤ 0 ∨
      Blockedid dateOf currentDate currentTime med.id ts.alerts) :
    T.foldl (tokenStep dateOf currentTime currentDate now boxName) (med, ts) = (med, ts) := by
  induction T with
  | nil => rfl
  | cons t rest ih =>
    have hstep : tokenStep dateOf currentTime currentDate now boxName (med, ts) t = (med, ts) := by
      rcases h with h | h | h
      · exact tokenStep_not_time dateOf currentTime currentDate now boxName (med, ts) t
          (fun he => h (he ▸ List.mem_cons_self t rest))
      · exact tokenStep_nonpos dateOf currentTime currentDate now boxName (med, ts) t h
      · by_cases ht : t = currentTime
        · refine tokenStep_blocked dateOf currentTime currentDate now boxName (med, ts) t ?_
          rw [ht]
          exact (blockedid_any dateOf currentTime currentDate med.id ts.alerts).mp h
        · exact tokenStep_not_time dateOf currentTime currentDate now boxName (med, ts) t ht
    rw [List.foldl_cons, hstep]
    apply ih
    rcases h with h | h | h
    · exact Or.inl (fun he => h (List.mem_cons_of_mem t he))
    · exact Or.inr (Or.inl h)
    · exact Or.inr (Or.inr h)

theorem tokfold_main (Hdate : dateOf now = currentDate) (T : List String) (med : Medicine)
    (ts : TickAcc) :
    ∃ L : List Alert,
      (T.foldl (tokenStep dateOf currentTime currentDate now boxName) (med, ts)).2.alerts =
        ts.alerts ++ L ∧
      (T.foldl (tokenStep dateOf currentTime currentDate now boxName) (med, ts)).2.newAlerts =
        ts.newAlerts ++ L ∧
      (∀ a ∈ L, a.medicineId = med.id) ∧
      (Fires dateOf currentDate currentTime T med ts.alerts →
        (T.foldl (tokenStep dateOf currentTime currentDate now boxName) (med, ts)).1 =
          decM now med ∧
        ∃ a ∈ L, isDupTimeAlert dateOf currentDate med.id currentTime a = true) ∧
      (¬ Fires dateOf currentDate currentTime T med ts.alerts →
        (T.foldl (tokenStep dateOf currentTime currentDate now boxName) (med, ts)).1 = med ∧
        L = []) := by
  induction T generalizing ts with
  | nil =>
    refine ⟨[], by simp, by simp, by simp, ?_, ?_⟩
    · intro hf
      exact absurd hf.1 (List.not_mem_nil currentTime)
    · intro _
      exact ⟨rfl, rfl⟩
  | cons t rest ih =>
    by_cases ht : t = currentTime
    · by_cases hc : 0 < med.currentCount
      · by_cases hb : Blockedid dateOf currentDate currentTime med.id ts.alerts
        · have hstep : tokenStep dateOf currentTime currentDate now boxName (med, ts) t =
              (med, ts) := by
            refine tokenStep_blocked dateOf currentTime currentDate now boxName (med, ts) t ?_
            rw [ht]
            exact (blockedid_any dateOf currentTime currentDate med.id ts.alerts).mp hb
          rw [List.foldl_cons, hstep]
          have hnof : ¬ Fires dateOf currentDate currentTime rest med ts.alerts :=
            fun hf => hf.2.2 hb
          obtain ⟨L, hA, hN, hid, _, hno⟩ := ih ts
          obtain ⟨hmed, hL⟩ := hno hnof
          refine ⟨L, hA, hN, hid, ?_, fun _ => ⟨hmed, hL⟩⟩
          intro hf
          exact absurd hf.2.2 (fun hn => hn hb)
        · -- the dose fires on this token
          obtain ⟨L, hstep, hid, hmatch⟩ :=
            tokenStep_fires dateOf currentTime currentDate now boxName med ts t Hdate ht hc
              (by
                rcases hany : ts.alerts.any (isDupTimeAlert dateOf currentDate med.id t) with _ | _
                · rfl
                · exact absurd ((blockedid_any dateOf currentTime currentDate med.id
                    ts.alerts).mpr (ht ▸ hany)) hb)
          rw [List.foldl_cons, hstep]
          have hrest : rest.foldl (tokenStep dateOf currentTime currentDate now boxName)
              (decM now med,
                { alerts := ts.alerts ++ L, newAlerts := ts.newAlerts ++ L,
                  ctr := ts.ctr + L.length }) =
              (decM now med,
                { alerts := ts.alerts ++ L, newAlerts := ts.newAlerts ++ L,
                  ctr := ts.ctr + L.length }) := by
            apply tokfold_inert
            refine Or.inr (Or.inr ?_)
            obtain ⟨a, haL, hp⟩ := hmatch
            exact ⟨a, List.mem_append_right _ haL, hp⟩
          rw [hrest]
          refine ⟨L, rfl, rfl, hid, fun _ => ⟨rfl, hmatch⟩, ?_⟩
          intro hnf
          exact absurd ⟨List.mem_cons.mpr (Or.inl ht.symm), hc, hb⟩ hnf
      · have hstep : tokenStep dateOf currentTime currentDate now boxName (med, ts) t =
            (med, ts) :=
          tokenStep_nonpos dateOf currentTime currentDate now boxName (med, ts) t
            (by show med.currentCount ≤ 0; omega)
        rw [List.foldl_cons, hstep]
        obtain ⟨L, hA, hN, hid, _, hno⟩ := ih ts
        have hnof : ¬ Fires dateOf currentDate currentTime rest med ts.alerts :=
          fun hf => hc hf.2.1
        obtain ⟨hmed, hL⟩ := hno hnof
        refine ⟨L, hA, hN, hid, ?_, fun _ => ⟨hmed, hL⟩⟩
        intro hf
        exact absurd hf.2.1 hc
    · have hstep : tokenStep dateOf currentTime currentDate now boxName (med, ts) t =
          (med, ts) :=
        tokenStep_not_time dateOf currentTime currentDate now boxName (med, ts) t ht
      rw [List.foldl_cons, hstep]
      obtain ⟨L, hA, hN, hid, hyes, hno⟩ := ih ts
      have hmemiff : currentTime ∈ t :: rest ↔ currentTime ∈ rest := by
        constructor
        · intro h
          rcases List.mem_cons.mp h with h | h
          · exact absurd h.symm ht
          · exact h
        · exact List.mem_cons_of_mem t
      refine ⟨L, hA, hN, hid, ?_, ?_⟩
      · intro hf
        exact hyes ⟨hmemiff.mp hf.1, hf.2⟩
      · intro hnf
        exact hno (fun hf => hnf ⟨hmemiff.mpr hf.1, hf.2⟩)

end FoldLemmas

/-! ### Medicine-fold and box-fold behaviour -/

section FoldLemmas2

variable (dateOf : Int → String) (currentTime currentDate : String) (now : Int) (boxName : String)

theorem allMedIds_cons (b : MedicineBox) (rest : List MedicineBox) :
    allMedIds (b :: rest) = b.medicines.map (fun m => m.id) ++ allMedIds rest := by
  simp [allMedIds]

theorem medfold_main (Hdate : dateOf now = currentDate) (meds : List Medicine)
    (ms : List Medicine) (ts : TickAcc) :
    ∃ (out : List Medicine) (L : List Alert),
      (meds.foldl (medStep dateOf currentTime currentDate now boxName) (ms, ts)).1 = ms ++ out ∧
      (meds.foldl (medStep dateOf currentTime currentDate now boxName) (ms, ts)).2.alerts =
        ts.alerts ++ L ∧
      (meds.foldl (medStep dateOf currentTime currentDate now boxName) (ms, ts)).2.newAlerts =
        ts.newAlerts ++ L ∧
      (∀ a ∈ L, a.medicineId ∈ meds.map (fun m => m.id)) ∧
      (∀ m' ∈ out, ∃ m ∈ meds, m'.id = m.id ∧ m'.scheduleTime = m.scheduleTime ∧
        (m'.currentCount = m.currentCount ∨
          (0 < m.currentCount ∧ m'.currentCount = m.currentCount - 1))) ∧
      (∀ m' ∈ out, currentTime ∈ tokensOf m' → m'.currentCount ≤ 0 ∨
        Blockedid dateOf currentDate currentTime m'.id (ts.alerts ++ L)) := by
  induction meds generalizing ms ts with
  | nil =>
    exact ⟨[], [], by simp, by simp, by simp, by simp, by simp, by simp⟩
  | cons m0 rest ih =>
    obtain ⟨L0, hA0, hN0, hid0, hyes0, hno0⟩ :=
      tokfold_main dateOf currentTime currentDate now boxName Hdate (tokensOf m0) m0 ts
    set r := (tokensOf m0).foldl (tokenStep dateOf currentTime currentDate now boxName) (m0, ts)
      with hr
    obtain ⟨out, L, h1, h2, h3, h4, h5, h6⟩ := ih (ms ++ [r.1]) r.2
    have hstep : medStep dateOf currentTime currentDate now boxName (ms, ts) m0 =
        (ms ++ [r.1], r.2) := rfl
    rw [List.foldl_cons, hstep]
    refine ⟨r.1 :: out, L0 ++ L, ?_, ?_, ?_, ?_, ?_, ?_⟩
    · rw [h1]
      simp
    · rw [h2, hA0, List.append_assoc]
    · rw [h3, hN0, List.append_assoc]
    · intro a ha
      rcases List.mem_append.mp ha with ha | ha
      · simp only [List.map_cons, List.mem_cons]
        exact Or.inl (hid0 a ha)
      · simp only [List.map_cons, List.mem_cons]
        exact Or.inr (h4 a ha)
    · intro m' hm'
      rcases List.mem_cons.mp hm' with hm' | hm'
      · subst hm'
        by_cases hf : Fires dateOf currentDate currentTime (tokensOf m0) m0 ts.alerts
        · refine ⟨m0, List.mem_cons_self m0 rest, ?_⟩
          rw [(hyes0 hf).1]
          exact ⟨rfl, rfl, Or.inr ⟨hf.2.1, rfl⟩⟩
        · refine ⟨m0, List.mem_cons_self m0 rest, ?_⟩
          rw [(hno0 hf).1]
          exact ⟨rfl, rfl, Or.inl rfl⟩
      · obtain ⟨m, hmem, hrel⟩ := h5 m' hm'
        exact ⟨m, List.mem_cons_of_mem m0 hmem, hrel⟩
    · intro m' hm' htok
      rcases List.mem_cons.mp hm' with hm' | hm'
      · subst hm'
        by_cases hf : Fires dateOf currentDate currentTime (tokensOf m0) m0 ts.alerts
        · obtain ⟨he, a, haL, hp⟩ := hyes0 hf
          refine Or.inr ?_
          have hid : r.1.id = m0.id := by rw [he]; rfl
          rw [hid, ← List.append_assoc]
          exact blockedid_append dateOf currentTime currentDate m0.id _ L
            ⟨a, List.mem_append_right _ haL, hp⟩
        · obtain ⟨he, hL0⟩ := hno0 hf
          rw [he] at htok ⊢
          have hdis : m0.currentCount ≤ 0 ∨
              Blockedid dateOf currentDate currentTime m0.id ts.alerts := by
            by_cases hc : 0 < m0.currentCount
            · by_cases hb : Blockedid dateOf currentDate currentTime m0.id ts.alerts
              · exact Or.inr hb
              · exact absurd ⟨htok, hc, hb⟩ hf
            · exact Or.inl (by omega)
          rcases hdis with h | h
          · exact Or.inl h
          · exact Or.inr (blockedid_append dateOf currentTime currentDate m0.id _ _ h)
      · rcases h6 m' hm' htok with h | h
        · exact Or.inl h
        · refine Or.inr ?_
          rw [hA0, List.append_assoc] at h
          exact h


theorem boxfold_main (Hdate : dateOf now = currentDate) (boxes : List MedicineBox)
    (bs : List MedicineBox) (ts : TickAcc) :
    ∃ (outB : List MedicineBox) (L : List Alert),
      (boxes.foldl (boxStep dateOf currentTime currentDate now) (bs, ts)).1 = bs ++ outB ∧
      (boxes.foldl (boxStep dateOf currentTime currentDate now) (bs, ts)).2.alerts =
        ts.alerts ++ L ∧
      (boxes.foldl (boxStep dateOf currentTime currentDate now) (bs, ts)).2.newAlerts =
        ts.newAlerts ++ L ∧
      (∀ a ∈ L, a.medicineId ∈ allMedIds boxes) ∧
      (∀ b' ∈ outB, ∃ b ∈ boxes, ∀ m' ∈ b'.medicines, ∃ m ∈ b.medicines,
        m'.id = m.id ∧ m'.scheduleTime = m.scheduleTime ∧
        (m'.currentCount = m.currentCount ∨
          (0 < m.currentCount ∧ m'.currentCount = m.currentCount - 1))) ∧
      (∀ b' ∈ outB, ∀ m' ∈ b'.medicines, currentTime ∈ tokensOf m' → m'.currentCount ≤ 0 ∨
        Blockedid dateOf currentDate currentTime m'.id (ts.alerts ++ L)) := by
  induction boxes generalizing bs ts with
  | nil =>
    exact ⟨[], [], by simp, by simp, by simp, by simp, by simp, by simp⟩
  | cons b0 rest ih =>
    obtain ⟨out0, L0, g1, g2, g3, g4, g5, g6⟩ :=
      medfold_main dateOf currentTime currentDate now b0.name Hdate b0.medicines [] ts
    set rm := b0.medicines.foldl (medStep dateOf currentTime currentDate now b0.name) ([], ts)
      with hrm
    obtain ⟨outB, L, h1, h2, h3, h4, h5, h6⟩ :=
      ih (bs ++ [{ b0 with medicines := rm.1 }]) rm.2
    have hstep : boxStep dateOf currentTime currentDate now (bs, ts) b0 =
        (bs ++ [{ b0 with medicines := rm.1 }], rm.2) := rfl
    rw [List.foldl_cons, hstep]
    have hmeds : ({ b0 with medicines := rm.1 } : MedicineBox).medicines = out0 := by
      simpa using g1
    refine ⟨{ b0 with medicines := rm.1 } :: outB, L0 ++ L, ?_, ?_, ?_, ?_, ?_, ?_⟩
    · rw [h1]
      simp
    · rw [h2, g2, List.append_assoc]
    · rw [h3, g3, List.append_assoc]
    · intro a ha
      rw [allMedIds_cons]
      rcases List.mem_append.mp ha with ha | ha
      · exact List.mem_append_left _ (g4 a ha)
      · exact List.mem_append_right _ (h4 a ha)
    · intro b' hb'
      rcases List.mem_cons.mp hb' with hb' | hb'
      · subst hb'
        refine ⟨b0, List.mem_cons_self b0 rest, ?_⟩
        intro m' hm'
        rw [hmeds] at hm'
        exact g5 m' hm'
      · obtain ⟨b, hmem, hrel⟩ := h5 b' hb'
        exact ⟨b, List.mem_cons_of_mem b0 hmem, hrel⟩
    · intro b' hb' m' hm' htok
      rcases List.mem_cons.mp hb' with hb' | hb'
      · subst hb'
        rw [hmeds] at hm'
        rcases g6 m' hm' htok with h | h
        · exact Or.inl h
        · refine Or.inr ?_
          rw [← List.append_assoc]
          exact blockedid_append dateOf currentTime currentDate m'.id _ L h
      · rcases h6 b' hb' m' hm' htok with h | h
        · exact Or.inl h
        · refine Or.inr ?_
          rw [g2, List.append_assoc] at h
          exact h

/-- Inertness condition for one medicine against an alert store: the current
minute matches no token, the count is exhausted, or a blocking alert exists. -/
theorem medfold_inert (meds : List Medicine) (ms : List Medicine) (ts : TickAcc)
    (h : ∀ m ∈ meds, currentTime ∉ tokensOf m ∨ m.currentCount ≤ 0 ∨
      Blockedid dateOf currentDate currentTime m.id ts.alerts) :
    meds.foldl (medStep dateOf currentTime currentDate now boxName) (ms, ts) =
      (ms ++ meds, ts) := by
  induction meds generalizing ms with
  | nil => simp
  | cons m0 rest ih =>
    have htf : (tokensOf m0).foldl (tokenStep dateOf currentTime currentDate now boxName)
        (m0, ts) = (m0, ts) :=
      tokfold_inert dateOf currentTime currentDate now boxName (tokensOf m0) m0 ts
        (h m0 (List.mem_cons_self m0 rest))
    have hstep : medStep dateOf currentTime currentDate now boxName (ms, ts) m0 =
        (ms ++ [m0], ts) := by
      unfold medStep
      rw [htf]
    rw [List.foldl_cons, hstep, ih (ms ++ [m0]) (fun m hm => h m (List.mem_cons_of_mem m0 hm))]
    simp

theorem boxfold_inert (boxes : List MedicineBox) (bs : List MedicineBox) (ts : TickAcc)
    (h : ∀ b ∈ boxes, ∀ m ∈ b.medicines, currentTime ∉ tokensOf m ∨ m.currentCount ≤ 0 ∨
      Blockedid dateOf currentDate currentTime m.id ts.alerts) :
    boxes.foldl (boxStep dateOf currentTime currentDate now) (bs, ts) = (bs ++ boxes, ts) := by
  induction boxes generalizing bs with
  | nil => simp
  | cons b0 rest ih =>
    have hmf : b0.medicines.foldl (medStep dateOf currentTime currentDate now b0.name)
        ([], ts) = ([] ++ b0.medicines, ts) :=
      medfold_inert dateOf currentTime currentDate now b0.name b0.medicines [] ts
        (h b0 (List.mem_cons_self b0 rest))
    have hstep : boxStep dateOf currentTime currentDate now (bs, ts) b0 = (bs ++ [b0], ts) := by
      unfold boxStep
      rw [hmf]
      rfl
    rw [List.foldl_cons, hstep, ih (bs ++ [b0]) (fun b hb => h b (List.mem_cons_of_mem b0 hb))]
    simp

/-- Target lemma for the medicine fold: when the ids in `meds` are distinct,
the target medicine fires and the accumulated prefix avoids its id, the unique
medicine with the target id in the output is the decremented target. -/
theorem medfold_target (Hdate : dateOf now = currentDate) (meds : List Medicine)
    (ms : List Medicine) (ts : TickAcc) (m : Medicine)
    (hnd : (meds.map (fun x => x.id)).Nodup)
    (hm : m ∈ meds) (hc : 0 < m.currentCount) (htok : currentTime ∈ tokensOf m)
    (hnb : ¬ Blockedid dateOf currentDate currentTime m.id ts.alerts)
    (hpre : ∀ x ∈ ms, x.id ≠ m.id) :
    ∀ m' ∈ (meds.foldl (medStep dateOf currentTime currentDate now boxName) (ms, ts)).1,
      m'.id = m.id → m' = decM now m := by
  induction meds generalizing ms ts with
  | nil => exact absurd hm (List.not_mem_nil m)
  | cons m0 rest ih =>
    obtain ⟨L0, hA0, hN0, hid0, hyes0, hno0⟩ :=
      tokfold_main dateOf currentTime currentDate now boxName Hdate (tokensOf m0) m0 ts
    set r := (tokensOf m0).foldl (tokenStep dateOf currentTime currentDate now boxName) (m0, ts)
      with hr
    have hstep : medStep dateOf currentTime currentDate now boxName (ms, ts) m0 =
        (ms ++ [r.1], r.2) := rfl
    rw [List.foldl_cons, hstep]
    rcases List.mem_cons.mp hm with hm0 | hmrest
    · -- the target is processed first and fires
      subst hm0
      have hfire : Fires dateOf currentDate currentTime (tokensOf m) m ts.alerts := ⟨htok, hc, hnb⟩
      obtain ⟨he, a0, ha0, hp0⟩ := hyes0 hfire
      obtain ⟨out, L, h1, h2, h3, h4, h5, h6⟩ :=
        medfold_main dateOf currentTime currentDate now boxName Hdate rest (ms ++ [r.1]) r.2
      intro m' hm' hid
      rw [h1] at hm'
      rcases List.mem_append.mp hm' with hm' | hm'
      · rcases List.mem_append.mp hm' with hm' | hm'
        · exact absurd hid (hpre m' hm')
        · rw [List.mem_singleton.mp hm', he]
      · obtain ⟨x, hx, hxid, _⟩ := h5 m' hm'
        rw [hxid] at hid
        exact absurd (List.mem_map.mpr ⟨x, hx, hid⟩) (List.nodup_cons.mp hnd).1
    · -- the target sits in the tail; the head medicine cannot collide
      have hne : m0.id ≠ m.id := by
        intro hEq
        exact (List.nodup_cons.mp hnd).1 (List.mem_map.mpr ⟨m, hmrest, hEq.symm⟩)
      have hr1id : r.1.id = m0.id := by
        by_cases hf : Fires dateOf currentDate currentTime (tokensOf m0) m0 ts.alerts
        · rw [(hyes0 hf).1]
          rfl
        · rw [(hno0 hf).1]
      have hnb' : ¬ Blockedid dateOf currentDate currentTime m.id r.2.alerts := by
        intro hB
        rw [hA0] at hB
        obtain ⟨a, ha, hp⟩ := hB
        rcases List.mem_append.mp ha with ha | ha
        · exact hnb ⟨a, ha, hp⟩
        · have : a.medicineId = m0.id := hid0 a ha
          unfold isDupTimeAlert at hp
          simp only [Bool.and_eq_true, beq_iff_eq] at hp
          exact hne (this ▸ hp.1.1.1)
      exact ih (ms ++ [r.1]) r.2 (List.nodup_cons.mp hnd).2 hmrest hnb'
        (fun x hx => by
          rcases List.mem_append.mp hx with hx | hx
          · exact hpre x hx
          · rw [List.mem_singleton.mp hx]
            rw [hr1id]
            exact hne)

/-- Target lemma for the box fold: with globally distinct medicine ids, a
firing target medicine is decremented, and it is the only output medicine
carrying its id. -/
theorem boxfold_target (Hdate : dateOf now = currentDate) (boxes : List MedicineBox)
    (bs : List MedicineBox) (ts : TickAcc) (box : MedicineBox) (m : Medicine)
    (hnd : (allMedIds boxes).Nodup)
    (hbox : box ∈ boxes) (hm : m ∈ box.medicines)
    (hc : 0 < m.currentCount) (htok : currentTime ∈ tokensOf m)
    (hnb : ¬ Blockedid dateOf currentDate currentTime m.id ts.alerts)
    (hpre : ∀ b ∈ bs, ∀ x ∈ b.medicines, x.id ≠ m.id) :
    ∀ b' ∈ (boxes.foldl (boxStep dateOf currentTime currentDate now) (bs, ts)).1,
      ∀ m' ∈ b'.medicines, m'.id = m.id → m' = decM now m := by
  induction boxes generalizing bs ts with
  | nil => exact absurd hbox (List.not_mem_nil box)
  | cons b0 rest ih =>
    rw [allMedIds_cons] at hnd
    obtain ⟨hnd0, hndrest, hdisj⟩ := List.nodup_append.mp hnd
    obtain ⟨out0, L0, g1, g2, g3, g4, g5, g6⟩ :=
      medfold_main dateOf currentTime currentDate now b0.name Hdate b0.medicines [] ts
    set rm := b0.medicines.foldl (medStep dateOf currentTime currentDate now b0.name) ([], ts)
      with hrm
    have hstep : boxStep dateOf currentTime currentDate now (bs, ts) b0 =
        (bs ++ [{ b0 with medicines := rm.1 }], rm.2) := rfl
    rw [List.foldl_cons, hstep]
    have hmeds : ({ b0 with medicines := rm.1 } : MedicineBox).medicines = out0 := by
      simpa using g1
    rcases List.mem_cons.mp hbox with hb0 | hbrest
    · -- the target medicine lives in the head box
      subst hb0
      have htar := medfold_target dateOf currentTime currentDate now box.name Hdate
        box.medicines [] ts m hnd0 hm hc htok hnb (by intro x hx; simp at hx)
      obtain ⟨outB, L, h1, h2, h3, h4, h5, h6⟩ :=
        boxfold_main dateOf currentTime currentDate now Hdate rest
          (bs ++ [{ box with medicines := rm.1 }]) rm.2
      intro b' hb' m' hm' hid
      rw [h1] at hb'
      rcases List.mem_append.mp hb' with hb' | hb'
      · rcases List.mem_append.mp hb' with hb' | hb'
        · exact absurd hid (hpre b' hb' m' hm')
        · rw [List.mem_singleton.mp hb'] at hm'
          exact htar m' (by simpa using hm') hid
      · obtain ⟨b, hbmem, hrel⟩ := h5 b' hb'
        obtain ⟨x, hx, hxid, _⟩ := hrel m' hm'
        rw [hxid] at hid
        have hmemrest : m.id ∈ allMedIds rest := by
          unfold allMedIds
          exact List.mem_map.mpr ⟨x, List.mem_flatMap.mpr ⟨b, hbmem, hx⟩, hid⟩
        have hmemhead : m.id ∈ box.medicines.map (fun x => x.id) :=
          List.mem_map.mpr ⟨m, hm, rfl⟩
        exact absurd hmemrest (List.disjoint_left.mp hdisj hmemhead)
    · -- the target medicine lives in the tail boxes
      have hnotin0 : m.id ∉ b0.medicines.map (fun x => x.id) := by
        intro hmem
        have hmemrest : m.id ∈ allMedIds rest := by
          unfold allMedIds
          exact List.mem_map.mpr ⟨m, List.mem_flatMap.mpr ⟨box, hbrest, hm⟩, rfl⟩
        exact List.disjoint_left.mp hdisj hmem hmemrest
      have hnb' : ¬ Blockedid dateOf currentDate currentTime m.id rm.2.alerts := by
        intro hB
        rw [g2] at hB
        obtain ⟨a, ha, hp⟩ := hB
        rcases List.mem_append.mp ha with ha | ha
        · exact hnb ⟨a, ha, hp⟩
        · have hain := g4 a ha
          unfold isDupTimeAlert at hp
          simp only [Bool.and_eq_true, beq_iff_eq] at hp
          rw [hp.1.1.1] at hain
          exact hnotin0 hain
      refine ih (bs ++ [{ b0 with medicines := rm.1 }]) rm.2 hndrest hbrest hnb' ?_
      intro b hb x hx
      rcases List.mem_append.mp hb with hb | hb
      · exact hpre b hb x hx
      · rw [List.mem_singleton.mp hb] at hx
        rw [hmeds] at hx
        obtain ⟨mm, hmm, hmmid, _⟩ := g5 x hx
        intro hEq
        rw [hmmid] at hEq
        exact hnotin0 (List.mem_map.mpr ⟨mm, hmm, hEq⟩)

end FoldLemmas2

/-! ## Claim theorems -/

/-- C1: for every medicine in every box, when `checkMedicineTimes` runs at an
instant whose HH:MM equals one of the medicine's schedule tokens, the count is
positive, and no `medicine_time` alert for that medicine, token and calendar
date exists, the medicine's `currentCount` decreases by exactly 1; and
`currentCount` never becomes negative (a non-negative store stays
non-negative, every deduction being floored at zero).  Medicine ids are
pairwise distinct, as the data model's identity notion requires. -/
theorem C1_due_dose_decrements_once (dateOf : Int → String) (currentTime currentDate : String)
    (now : Int) (ctr : Nat) (boxes : List MedicineBox) (alerts : List Alert)
    (Hdate : dateOf now = currentDate) (Hnodup : (allMedIds boxes).Nodup) :
    (∀ box ∈ boxes, ∀ m ∈ box.medicines,
      currentTime ∈ tokensOf m → 0 < m.currentCount →
      ¬ Blockedid dateOf currentDate currentTime m.id alerts →
      ∀ box' ∈ (dataService.checkMedicineTimes dateOf currentTime currentDate now ctr
          boxes alerts).boxes,
        ∀ m' ∈ box'.medicines, m'.id = m.id → m'.currentCount = m.currentCount - 1) ∧
    ((∀ box ∈ boxes, ∀ m ∈ box.medicines, 0 ≤ m.currentCount) →
      ∀ box' ∈ (dataService.checkMedicineTimes dateOf currentTime currentDate now ctr
          boxes alerts).boxes,
        ∀ m' ∈ box'.medicines, 0 ≤ m'.currentCount) := by
  constructor
  · intro box hbox m hm htok hc hnb box' hb' m' hm' hid
    have htar := boxfold_target dateOf currentTime currentDate now Hdate boxes []
      { alerts := alerts, newAlerts := [], ctr := ctr } box m Hnodup hbox hm hc htok hnb
      (by intro b hb; simp at hb)
    have hb2 : box' ∈ (boxes.foldl (boxStep dateOf currentTime currentDate now)
        ([], { alerts := alerts, newAlerts := [], ctr := ctr })).1 := hb'
    rw [htar box' hb2 m' hm' hid]
    rfl
  · intro hpos box' hb' m' hm'
    obtain ⟨outB, L, h1, _, _, _, h5, _⟩ :=
      boxfold_main dateOf currentTime currentDate now Hdate boxes []
        { alerts := alerts, newAlerts := [], ctr := ctr }
    have hb2 : box' ∈ (boxes.foldl (boxStep dateOf currentTime currentDate now)
        ([], { alerts := alerts, newAlerts := [], ctr := ctr })).1 := hb'
    rw [h1] at hb2
    simp only [List.nil_append] at hb2
    obtain ⟨b, hbmem, hrel⟩ := h5 box' hb2
    obtain ⟨mm, hmm, _, _, hcnt⟩ := hrel m' hm'
    rcases hcnt with h | ⟨hp, h⟩
    · rw [h]
      exact hpos b hbmem mm hmm
    · rw [h]
      omega

/-- C2: running `checkMedicineTimes` a second time in the same minute and on
the same calendar date, from the state the first run produced, changes no
medicine count, adds no alert, and returns an empty new-alert list. -/
theorem C2_second_run_is_noop (dateOf : Int → String) (currentTime currentDate : String)
    (now : Int) (ctr1 ctr2 : Nat) (boxes : List MedicineBox) (alerts : List Alert)
    (Hdate : dateOf now = currentDate) :
    (dataService.checkMedicineTimes dateOf currentTime currentDate now ctr2
        (dataService.checkMedicineTimes dateOf currentTime currentDate now ctr1
          boxes alerts).boxes
        (dataService.checkMedicineTimes dateOf currentTime currentDate now ctr1
          boxes alerts).alerts).boxes =
      (dataService.checkMedicineTimes dateOf currentTime currentDate now ctr1
        boxes alerts).boxes ∧
    (dataService.checkMedicineTimes dateOf currentTime currentDate now ctr2
        (dataService.checkMedicineTimes dateOf currentTime currentDate now ctr1
          boxes alerts).boxes
        (dataService.checkMedicineTimes dateOf currentTime currentDate now ctr1
          boxes alerts).alerts).alerts =
      (dataService.checkMedicineTimes dateOf currentTime currentDate now ctr1
        boxes alerts).alerts ∧
    (dataService.checkMedicineTimes dateOf currentTime currentDate now ctr2
        (dataService.checkMedicineTimes dateOf currentTime currentDate now ctr1
          boxes alerts).boxes
        (dataService.checkMedicineTimes dateOf currentTime currentDate now ctr1
          boxes alerts).alerts).newAlerts = [] := by
  obtain ⟨outB, L, h1, h2, h3, h4, h5, h6⟩ :=
    boxfold_main dateOf currentTime currentDate now Hdate boxes []
      ⟨alerts, [], ctr1⟩
  have hinert : ∀ b ∈ (boxes.foldl (boxStep dateOf currentTime currentDate now)
      ([], ⟨alerts, [], ctr1⟩)).1,
      ∀ m ∈ b.medicines, currentTime ∉ tokensOf m ∨ m.currentCount ≤ 0 ∨
        Blockedid dateOf currentDate currentTime m.id
          (boxes.foldl (boxStep dateOf currentTime currentDate now)
            ([], ⟨alerts, [], ctr1⟩)).2.alerts := by
    intro b hb m hm
    by_cases ht : currentTime ∈ tokensOf m
    · have hb2 := hb
      rw [h1] at hb2
      simp only [List.nil_append] at hb2
      rcases h6 b hb2 m hm ht with h | h
      · exact Or.inr (Or.inl h)
      · refine Or.inr (Or.inr ?_)
        rw [h2]
        exact h
    · exact Or.inl ht
  have hrun2 := boxfold_inert dateOf currentTime currentDate now
    (boxes.foldl (boxStep dateOf currentTime currentDate now) ([], ⟨alerts, [], ctr1⟩)).1 []
    ⟨(boxes.foldl (boxStep dateOf currentTime currentDate now)
        ([], ⟨alerts, [], ctr1⟩)).2.alerts, [], ctr2⟩
    hinert
  exact ⟨(congrArg Prod.fst hrun2).trans (List.nil_append _),
    congrArg (fun p => p.2.alerts) hrun2,
    congrArg (fun p => p.2.newAlerts) hrun2⟩

section C3Helpers

variable (dateOf : Int → String) (currentTime currentDate : String) (now : Int) (boxName : String)

theorem tokenStep_fire_low4 (med : Medicine) (ts : TickAcc)
    (hc : med.currentCount = 4)
    (hnb : ts.alerts.any (isDupTimeAlert dateOf currentDate med.id currentTime) = false)
    (hnl : ts.alerts.any (isUnreadLowAlert med.id) = false) :
    tokenStep dateOf currentTime currentDate now boxName (med, ts) currentTime =
      (decM now med,
        pushAlert (pushAlert ts (mkTimeAlert now ts.ctr boxName med currentTime))
          (mkLowAlert now (ts.ctr + 1) boxName (decM now med) 3)) := by
  unfold tokenStep
  simp [hc, hnb, hnl, pushAlert, mkTimeAlert, mkLowAlert, isUnreadLowAlert, decM]

theorem tokenStep_fire_oos1 (med : Medicine) (ts : TickAcc)
    (hc : med.currentCount = 1)
    (hnb : ts.alerts.any (isDupTimeAlert dateOf currentDate med.id currentTime) = false) :
    tokenStep dateOf currentTime currentDate now boxName (med, ts) currentTime =
      (decM now med,
        pushAlert (pushAlert ts (mkTimeAlert now ts.ctr boxName med currentTime))
          (mkOosAlert now (ts.ctr + 1) boxName (decM now med))) := by
  unfold tokenStep
  simp [hc, hnb, pushAlert, mkTimeAlert, mkOosAlert, decM]

end C3Helpers

section C3Assembly

variable (dateOf : Int → String) (currentTime currentDate : String) (now : Int)

theorem checkMedicineTimes_single (box : MedicineBox) (med med' : Medicine)
    (alerts : List Alert) (ctr : Nat) (ts' : TickAcc)
    (htok : tokensOf med = [currentTime])
    (hstep : tokenStep dateOf currentTime currentDate now box.name
      (med, ⟨alerts, [], ctr⟩) currentTime = (med', ts')) :
    dataService.checkMedicineTimes dateOf currentTime currentDate now ctr
      [{ box with medicines := [med] }] alerts =
      ⟨[{ box with medicines := [med'] }], ts'.alerts, ts'.newAlerts, ts'.ctr⟩ := by
  unfold dataService.checkMedicineTimes boxStep medStep
  simp only [List.foldl_cons, List.foldl_nil, htok]
  rw [hstep]
  simp

/-- C3: a due-dose tick on a box holding one medicine with `currentCount = 4`,
`timesPerDay = 1`, exactly one schedule token equal to the current minute, and
no blocking de-duplication alerts, sets the count to 3 and emits exactly a
`medicine_time` alert followed by one `low_count` alert (and no
`out_of_stock` alert); with `currentCount = 1` it sets the count to 0, skips
the `low_count` alert (`0` is not `> 0`), and emits an `out_of_stock`
alert. -/
theorem C3_low_count_and_out_of_stock (ctrA ctrB : Nat)
    (box : MedicineBox) (mA mB : Medicine) (alerts : List Alert)
    (hA4 : mA.currentCount = 4) (_hAtpd : mA.timesPerDay = 1)
    (hAtok : tokensOf mA = [currentTime])
    (hAnb : ¬ Blockedid dateOf currentDate currentTime mA.id alerts)
    (hAnl : ∀ a ∈ alerts, ¬ isUnreadLowAlert mA.id a = true)
    (hB1 : mB.currentCount = 1) (_hBtpd : mB.timesPerDay = 1)
    (hBtok : tokensOf mB = [currentTime])
    (hBnb : ¬ Blockedid dateOf currentDate currentTime mB.id alerts) :
    ((dataService.checkMedicineTimes dateOf currentTime currentDate now ctrA
        [{ box with medicines := [mA] }] alerts).newAlerts.map Alert.type =
      [AlertType.medicine_time, AlertType.low_count] ∧
     (dataService.checkMedicineTimes dateOf currentTime currentDate now ctrA
        [{ box with medicines := [mA] }] alerts).boxes =
      [{ box with medicines := [{ mA with currentCount := 3, updatedAt := now }] }]) ∧
    ((dataService.checkMedicineTimes dateOf currentTime currentDate now ctrB
        [{ box with medicines := [mB] }] alerts).newAlerts.map Alert.type =
      [AlertType.medicine_time, AlertType.out_of_stock] ∧
     (dataService.checkMedicineTimes dateOf currentTime currentDate now ctrB
        [{ box with medicines := [mB] }] alerts).boxes =
      [{ box with medicines := [{ mB with currentCount := 0, updatedAt := now }] }]) := by
  have hnbA : alerts.any (isDupTimeAlert dateOf currentDate mA.id currentTime) = false := by
    cases h : alerts.any (isDupTimeAlert dateOf currentDate mA.id currentTime) with
    | false => rfl
    | true => exact absurd ((blockedid_any dateOf currentTime currentDate mA.id alerts).mpr h) hAnb
  have hnlA : alerts.any (isUnreadLowAlert mA.id) = false := by
    simp only [List.any_eq_false]
    exact hAnl
  have hnbB : alerts.any (isDupTimeAlert dateOf currentDate mB.id currentTime) = false := by
    cases h : alerts.any (isDupTimeAlert dateOf currentDate mB.id currentTime) with
    | false => rfl
    | true => exact absurd ((blockedid_any dateOf currentTime currentDate mB.id alerts).mpr h) hBnb
  have hrunA := checkMedicineTimes_single dateOf currentTime currentDate now box mA
    (decM now mA) alerts ctrA _ hAtok
    (tokenStep_fire_low4 dateOf currentTime currentDate now box.name mA ⟨alerts, [], ctrA⟩
      hA4 hnbA hnlA)
  have hrunB := checkMedicineTimes_single dateOf currentTime currentDate now box mB
    (decM now mB) alerts ctrB _ hBtok
    (tokenStep_fire_oos1 dateOf currentTime currentDate now box.name mB ⟨alerts, [], ctrB⟩
      hB1 hnbB)
  rw [hrunA, hrunB]
  refine ⟨⟨?_, ?_⟩, ?_, ?_⟩
  · simp [pushAlert, mkTimeAlert, mkLowAlert]
  · simp [decM, hA4]
  · simp [pushAlert, mkTimeAlert, mkOosAlert]
  · simp [decM, hB1]

end C3Assembly


/-- C4: `getAlerts` returns exactly the alerts created within the last 24
hours of `now` (strictly less than 86400000 ms old; one 25 hours old is
dropped, one 23 hours old kept), and it writes the pruned set back to the
store if and only if at least one alert was pruned (otherwise the stored set
is left as it was). -/
theorem C4_getAlerts_retention (now : Int) (alerts : List Alert) :
    (∀ a, a ∈ (dataService.getAlerts now alerts).1 ↔
      (a ∈ alerts ∧ now - a.createdAt < 86400000)) ∧
    ((dataService.getAlerts now alerts).2.2 = true ↔
      ∃ a ∈ alerts, ¬ (now - a.createdAt < 86400000)) ∧
    ((dataService.getAlerts now alerts).2.2 = true →
      (dataService.getAlerts now alerts).2.1 = (dataService.getAlerts now alerts).1) ∧
    ((dataService.getAlerts now alerts).2.2 = false →
      (dataService.getAlerts now alerts).2.1 = alerts) := by
  have h1 : (dataService.getAlerts now alerts).1 =
      alerts.filter (fun a => decide (now - 86400000 < a.createdAt)) := by
    simp only [dataService.getAlerts]
    split <;> rfl
  have hmem : ∀ a, a ∈ (dataService.getAlerts now alerts).1 ↔
      (a ∈ alerts ∧ now - a.createdAt < 86400000) := by
    intro a
    rw [h1, List.mem_filter]
    simp only [decide_eq_true_eq]
    constructor
    · rintro ⟨ha, hlt⟩
      exact ⟨ha, by omega⟩
    · rintro ⟨ha, hlt⟩
      exact ⟨ha, by omega⟩
  by_cases h : (alerts.filter (fun a => decide (now - 86400000 < a.createdAt))).length =
      alerts.length
  · have he : dataService.getAlerts now alerts =
        (alerts.filter (fun a => decide (now - 86400000 < a.createdAt)), alerts, false) := by
      simp only [dataService.getAlerts]
      rw [if_neg (by simpa using h)]
    refine ⟨hmem, ?_, ?_, ?_⟩
    · rw [he]
      constructor
      · intro hf
        exact absurd hf (by simp)
      · rintro ⟨a, ha, hna⟩
        have hdec := List.filter_length_eq_length.mp h a ha
        simp only [decide_eq_true_eq] at hdec
        exact absurd (by omega : now - a.createdAt < 86400000) hna
    · rw [he]
      intro hf
      exact absurd hf (by simp)
    · rw [he]
      intro _
      rfl
  · have he : dataService.getAlerts now alerts =
        (alerts.filter (fun a => decide (now - 86400000 < a.createdAt)),
         alerts.filter (fun a => decide (now - 86400000 < a.createdAt)), true) := by
      simp only [dataService.getAlerts]
      rw [if_pos (by simpa using h)]
    have hex : ∃ a ∈ alerts, ¬ (now - 86400000 < a.createdAt) := by
      by_contra hno
      push_neg at hno
      exact h (List.filter_length_eq_length.mpr (fun a ha => by
        simp only [decide_eq_true_eq]
        exact hno a ha))
    obtain ⟨a, ha, hne⟩ := hex
    refine ⟨hmem, ?_, ?_, ?_⟩
    · rw [he]
      constructor
      · intro _
        exact ⟨a, ha, fun hlt => hne (by omega)⟩
      · intro _
        rfl
    · rw [he]
      intro _
      rfl
    · rw [he]
      intro hf
      exact absurd hf (by simp)

/-- C10: the low-stock tick `checkLowMedicines` never modifies the
medicine-boxes collection: the boxes (with every medicine field) are returned
exactly as stored, and only the alerts collection is written. -/
theorem C10_low_tick_leaves_boxes (now : Int) (ctr : Nat) (s : AppState) :
    (dataService.checkLowMedicines now ctr s).1.boxes = s.boxes := rfl

/-- C9 counterexample: a non-2xx HTTP response (status 500) makes
`ESP32Service.disconnect` report `success = false`, refuting the claim that
every outcome reports success. -/
theorem C9_counterexample :
    (ESP32Service.disconnect (FetchOutcome.response 500)).success = false := rfl

/-- C9 (amended): `ESP32Service.disconnect` reports success exactly when the
HTTP response is 2xx or when the request fails outright (network error or
timeout, the catch branch); a delivered non-2xx response reports failure. -/
theorem C9_disconnect_success_classification (status : Nat) :
    (ESP32Service.disconnect (FetchOutcome.response status)).success = respOk status ∧
    (ESP32Service.disconnect FetchOutcome.networkError).success = true ∧
    (ESP32Service.disconnect FetchOutcome.timeout).success = true :=
  ⟨rfl, rfl, rfl⟩

/-! ### CRUD helper lemmas -/

theorem updateBoxIn_none (id : String) (upd : MedicineBox → MedicineBox) (now : Int)
    (l : List MedicineBox) (h : ∀ b ∈ l, b.id ≠ id) :
    updateBoxIn id upd now l = none := by
  induction l with
  | nil => rfl
  | cons b0 rest ih =>
    unfold updateBoxIn
    rw [if_neg (h b0 (List.mem_cons_self b0 rest))]
    rw [ih (fun b hb => h b (List.mem_cons_of_mem b0 hb))]

theorem addMedToBoxes_none (boxId : String) (med : Medicine) (now : Int)
    (l : List MedicineBox) (h : ∀ b ∈ l, b.id ≠ boxId) :
    addMedToBoxes boxId med now l = none := by
  induction l with
  | nil => rfl
  | cons b0 rest ih =>
    unfold addMedToBoxes
    rw [if_neg (h b0 (List.mem_cons_self b0 rest))]
    rw [ih (fun b hb => h b (List.mem_cons_of_mem b0 hb))]

theorem updateMedicineInBoxes_no_box (boxId medicineId : String) (upd : Medicine → Medicine)
    (now : Int) (l : List MedicineBox) (h : ∀ b ∈ l, b.id ≠ boxId) :
    updateMedicineInBoxes boxId medicineId upd now l =
      Except.error "Medicine box not found" := by
  induction l with
  | nil => rfl
  | cons b0 rest ih =>
    unfold updateMedicineInBoxes
    rw [if_neg (h b0 (List.mem_cons_self b0 rest))]
    rw [ih (fun b hb => h b (List.mem_cons_of_mem b0 hb))]

theorem deleteMedicineInBoxes_none (boxId medicineId : String) (now : Int)
    (l : List MedicineBox) (h : ∀ b ∈ l, b.id ≠ boxId) :
    deleteMedicineInBoxes boxId medicineId now l = none := by
  induction l with
  | nil => rfl
  | cons b0 rest ih =>
    unfold deleteMedicineInBoxes
    rw [if_neg (h b0 (List.mem_cons_self b0 rest))]
    rw [ih (fun b hb => h b (List.mem_cons_of_mem b0 hb))]

theorem deleteMedicineInBoxes_isSome (boxId medicineId : String) (now : Int)
    (l : List MedicineBox) (h : ∃ b ∈ l, b.id = boxId) :
    ∃ l', deleteMedicineInBoxes boxId medicineId now l = some l' := by
  induction l with
  | nil =>
    obtain ⟨b, hb, _⟩ := h
    exact absurd hb (List.not_mem_nil b)
  | cons b0 rest ih =>
    unfold deleteMedicineInBoxes
    by_cases hb0 : b0.id = boxId
    · rw [if_pos hb0]
      exact ⟨_, rfl⟩
    · rw [if_neg hb0]
      obtain ⟨b, hb, hid⟩ := h
      rcases List.mem_cons.mp hb with hbe | hbr
      · exact absurd (hbe ▸ hid) hb0
      · obtain ⟨l', hl'⟩ := ih ⟨b, hbr, hid⟩
        rw [hl']
        exact ⟨_, rfl⟩

theorem updateMedIn_none (medicineId : String) (upd : Medicine → Medicine) (now : Int)
    (meds : List Medicine) (h : ∀ m ∈ meds, m.id ≠ medicineId) :
    updateMedIn medicineId upd now meds = none := by
  induction meds with
  | nil => rfl
  | cons m0 rest ih =>
    unfold updateMedIn
    rw [if_neg (h m0 (List.mem_cons_self m0 rest))]
    rw [ih (fun m hm => h m (List.mem_cons_of_mem m0 hm))]

theorem updateMedicineInBoxes_no_med (boxId medicineId : String) (upd : Medicine → Medicine)
    (now : Int) (boxes1 : List MedicineBox) (b : MedicineBox) (boxes2 : List MedicineBox)
    (hpre : ∀ x ∈ boxes1, x.id ≠ boxId) (hb : b.id = boxId)
    (hmed : ∀ m ∈ b.medicines, m.id ≠ medicineId) :
    updateMedicineInBoxes boxId medicineId upd now (boxes1 ++ b :: boxes2) =
      Except.error "Medicine not found" := by
  induction boxes1 with
  | nil =>
    rw [List.nil_append]
    unfold updateMedicineInBoxes
    rw [if_pos hb]
    rw [updateMedIn_none medicineId upd now b.medicines hmed]
  | cons x rest ih =>
    rw [List.cons_append]
    unfold updateMedicineInBoxes
    rw [if_neg (hpre x (List.mem_cons_self x rest))]
    rw [ih (fun y hy => hpre y (List.mem_cons_of_mem x hy))]

/-- C5: `deleteMedicine` removes from the alert store exactly the alerts
whose `medicineId` equals the deleted medicine's id, and `deleteMedicineBox`
removes exactly the alerts whose `boxName` equals the deleted box's name or
whose `medicineId` belongs to a medicine nested in the deleted box.  `b` is
the box the delete resolves (the first with the given id). -/
theorem C5_cascade_delete (boxId medicineId : String) (now : Int) (s : AppState)
    (b : MedicineBox)
    (hfind : s.boxes.find? (fun x => x.id == boxId) = some b) :
    (∀ a, a ∈ (dataService.deleteMedicine boxId medicineId now s).1.alerts ↔
      (a ∈ s.alerts ∧ a.medicineId ≠ medicineId)) ∧
    (∀ a, a ∈ (dataService.deleteMedicineBox boxId s).1.alerts ↔
      (a ∈ s.alerts ∧ ¬ (a.boxName = b.name ∨ ∃ m ∈ b.medicines, m.id = a.medicineId))) := by
  have hexists : ∃ x ∈ s.boxes, x.id = boxId := by
    have hmem := List.mem_of_find?_eq_some hfind
    have hpred := List.find?_some hfind
    simp only [beq_iff_eq] at hpred
    exact ⟨b, hmem, hpred⟩
  constructor
  · intro a
    obtain ⟨l', hl'⟩ := deleteMedicineInBoxes_isSome boxId medicineId now s.boxes hexists
    unfold dataService.deleteMedicine
    rw [hl']
    simp only [List.mem_filter, Bool.not_eq_eq_eq_not, Bool.not_true, beq_eq_false_iff_ne,
      ne_eq]
  · intro a
    unfold dataService.deleteMedicineBox
    rw [hfind]
    simp only [List.mem_filter, Bool.not_eq_eq_eq_not, Bool.not_true, Bool.or_eq_false_iff,
      beq_eq_false_iff_ne, ne_eq, List.any_eq_false, beq_iff_eq]
    constructor
    · rintro ⟨ha, hbn, hmeds⟩
      refine ⟨ha, ?_⟩
      rintro (h | ⟨m, hm, hid⟩)
      · exact hbn h
      · exact hmeds m hm hid
    · rintro ⟨ha, hno⟩
      refine ⟨ha, fun h => hno (Or.inl h), fun m hm hid => hno (Or.inr ⟨m, hm, hid⟩)⟩

/-- Marking the first matching alert read and then keeping only unread alerts
equals filtering out read alerts and the marked id, when alert ids are
distinct. -/
theorem setReadFirst_filter (alertId : String) (alerts : List Alert)
    (hnd : (alerts.map (fun a => a.id)).Nodup) :
    (setReadFirst alertId alerts).filter (fun a => !a.isRead) =
      alerts.filter (fun a => !a.isRead && !(a.id == alertId)) := by
  induction alerts with
  | nil => rfl
  | cons a0 rest ih =>
    unfold setReadFirst
    by_cases h0 : a0.id = alertId
    · rw [if_pos h0]
      have hne : ∀ x ∈ rest, ¬ x.id = alertId := by
        intro x hx hEq
        exact (List.nodup_cons.mp hnd).1 (List.mem_map.mpr ⟨x, hx, hEq.trans h0.symm⟩)
      have hrest : rest.filter (fun a => !a.isRead && !(a.id == alertId)) =
          rest.filter (fun a => !a.isRead) := by
        apply List.filter_congr
        intro x hx
        simp [hne x hx]
      simp [List.filter_cons, h0, hrest]
    · rw [if_neg h0]
      have ih' := ih (List.nodup_cons.mp hnd).2
      simp [List.filter_cons, h0, ih']

/-- C7 counterexample: marking the single (unread) alert of the store as read
deletes it from the persisted store, refuting the claim that the alert
remains present afterwards. -/
theorem C7_counterexample :
    (⟨"1", "m1", "n", "b", AlertType.low_count, "msg", false, 0⟩ : Alert) ∈
      [(⟨"1", "m1", "n", "b", AlertType.low_count, "msg", false, 0⟩ : Alert)] ∧
    dataService.markAlertAsRead "1"
      [(⟨"1", "m1", "n", "b", AlertType.low_count, "msg", false, 0⟩ : Alert)] = [] := by
  constructor
  · exact List.mem_singleton.mpr rfl
  · rfl

/-- C7 (amended): `markAlertAsRead` persists only the unread alerts other
than the marked one — the marked alert and every already-read alert are
dropped from the store (ids being distinct); when the id matches nothing, the
store is untouched. -/
theorem C7_mark_read_deletes (alertId : String) (alerts : List Alert)
    (hnd : (alerts.map (fun a => a.id)).Nodup) :
    ((∃ a ∈ alerts, a.id = alertId) →
      ∀ a, a ∈ dataService.markAlertAsRead alertId alerts ↔
        (a ∈ alerts ∧ a.isRead = false ∧ a.id ≠ alertId)) ∧
    ((∀ a ∈ alerts, a.id ≠ alertId) →
      dataService.markAlertAsRead alertId alerts = alerts) := by
  constructor
  · intro hex a
    have hany : alerts.any (fun a => a.id == alertId) = true := by
      rw [List.any_eq_true]
      obtain ⟨x, hx, hid⟩ := hex
      exact ⟨x, hx, by simp [hid]⟩
    unfold dataService.markAlertAsRead
    rw [if_pos hany, setReadFirst_filter alertId alerts hnd]
    simp only [List.mem_filter, Bool.and_eq_true, Bool.not_eq_eq_eq_not, Bool.not_true,
      beq_eq_false_iff_ne, ne_eq]
  · intro hno
    have hany : alerts.any (fun a => a.id == alertId) = false := by
      rw [List.any_eq_false]
      intro x hx
      simp [hno x hx]
    unfold dataService.markAlertAsRead
    rw [hany]
    simp

/-- C8 counterexample: `deleteMedicineBox` called with an id that matches no
box resolves successfully (the source only logs a warning and returns),
refuting the claim that every id-taking operation rejects on not-found. -/
theorem C8_counterexample :
    dataService.deleteMedicineBox "b1" { boxes := [], alerts := [] } =
      ({ boxes := [], alerts := [] }, Except.ok ()) := rfl

/-- C8 (amended): with an unknown box id, `updateMedicineBox`, `addMedicine`,
`updateMedicine` and `deleteMedicine` reject with the state unchanged, while
`deleteMedicineBox` resolves successfully leaving the state unchanged;
`updateMedicine` also rejects (state unchanged) when the box exists but the
medicine id is unknown, while `deleteMedicine` resolves successfully in that
situation. -/
theorem C8_not_found_behaviour (boxId medicineId : String)
    (upd : MedicineBox → MedicineBox) (updM : Medicine → Medicine)
    (medData : Medicine) (newId lowId : String) (now : Int)
    (s1 : AppState) (hnone : ∀ b ∈ s1.boxes, b.id ≠ boxId)
    (s2 : AppState) (boxes1 : List MedicineBox) (b : MedicineBox) (boxes2 : List MedicineBox)
    (hsplit : s2.boxes = boxes1 ++ b :: boxes2) (hpre : ∀ x ∈ boxes1, x.id ≠ boxId)
    (hb : b.id = boxId) (hmednone : ∀ m ∈ b.medicines, m.id ≠ medicineId) :
    dataService.updateMedicineBox boxId upd now s1 =
      (s1, Except.error "Medicine box not found") ∧
    dataService.addMedicine boxId medData newId lowId now s1 =
      (s1, Except.error "Medicine box not found") ∧
    dataService.updateMedicine boxId medicineId updM now s1 =
      (s1, Except.error "Medicine box not found") ∧
    dataService.deleteMedicine boxId medicineId now s1 =
      (s1, Except.error "Medicine box not found") ∧
    dataService.deleteMedicineBox boxId s1 = (s1, Except.ok ()) ∧
    dataService.updateMedicine boxId medicineId updM now s2 =
      (s2, Except.error "Medicine not found") ∧
    (dataService.deleteMedicine boxId medicineId now s2).2 = Except.ok () := by
  refine ⟨?_, ?_, ?_, ?_, ?_, ?_, ?_⟩
  · unfold dataService.updateMedicineBox
    rw [updateBoxIn_none boxId upd now s1.boxes hnone]
  · have hadd := addMedToBoxes_none boxId
      ({ medData with id := newId, createdAt := now, updatedAt := now }) now s1.boxes hnone
    simp only [dataService.addMedicine, hadd]
  · unfold dataService.updateMedicine
    rw [updateMedicineInBoxes_no_box boxId medicineId updM now s1.boxes hnone]
  · unfold dataService.deleteMedicine
    rw [deleteMedicineInBoxes_none boxId medicineId now s1.boxes hnone]
  · unfold dataService.deleteMedicineBox
    have hfind : s1.boxes.find? (fun x => x.id == boxId) = none := by
      rw [List.find?_eq_none]
      intro x hx
      simp [hnone x hx]
    rw [hfind]
  · unfold dataService.updateMedicine
    rw [hsplit, updateMedicineInBoxes_no_med boxId medicineId updM now boxes1 b boxes2
      hpre hb hmednone]
  · have hexists : ∃ x ∈ s2.boxes, x.id = boxId := by
      rw [hsplit]
      exact ⟨b, List.mem_append_right _ (List.mem_cons_self b boxes2), hb⟩
    obtain ⟨l', hl'⟩ := deleteMedicineInBoxes_isSome boxId medicineId now s2.boxes hexists
    unfold dataService.deleteMedicine
    rw [hl']

/-! ### Low-stock tick lemmas -/

theorem lowMedStep_skip_inel (now : Int) (boxName : String) (acc : LowAcc) (med : Medicine)
    (h : ¬ isLowEligible med) : lowMedStep now boxName acc med = acc := by
  unfold lowMedStep
  rw [if_neg h]

theorem lowMedStep_skip_dup (now : Int) (boxName : String) (acc : LowAcc) (med : Medicine)
    (h : acc.alerts.any (isAnyLowAlert med.id) = true) :
    lowMedStep now boxName acc med = acc := by
  unfold lowMedStep
  by_cases hel : isLowEligible med
  · rw [if_pos hel, if_pos h]
  · rw [if_neg hel]

theorem lowMedStep_emit (now : Int) (boxName : String) (acc : LowAcc) (med : Medicine)
    (hel : isLowEligible med) (h : acc.alerts.any (isAnyLowAlert med.id) = false) :
    lowMedStep now boxName acc med =
      { alerts := acc.alerts ++ [mkLowAlert now acc.ctr boxName med med.currentCount]
        newAlerts := acc.newAlerts ++ [mkLowAlert now acc.ctr boxName med med.currentCount]
        ctr := acc.ctr + 1 } := by
  unfold lowMedStep
  rw [if_pos hel]
  simp only [h]
  rw [if_neg (by simp)]

theorem lowfold_med_main (now : Int) (boxName : String) (meds : List Medicine) (acc : LowAcc) :
    ∃ L : List Alert,
      (meds.foldl (lowMedStep now boxName) acc).alerts = acc.alerts ++ L ∧
      (meds.foldl (lowMedStep now boxName) acc).newAlerts = acc.newAlerts ++ L ∧
      (∀ a ∈ L, a.medicineId ∈ meds.map (fun m => m.id) ∧ a.type = AlertType.low_count) ∧
      ((meds.map (fun m => m.id)).Nodup →
        ∀ m ∈ meds, ((∃ a ∈ L, a.medicineId = m.id) ↔
          (isLowEligible m ∧ ¬ ∃ a ∈ acc.alerts, isAnyLowAlert m.id a = true))) := by
  induction meds generalizing acc with
  | nil => exact ⟨[], by simp, by simp, by simp, by simp⟩
  | cons m0 rest ih =>
    rw [List.foldl_cons]
    by_cases hel : isLowEligible m0
    · by_cases hex : acc.alerts.any (isAnyLowAlert m0.id) = true
      · rw [lowMedStep_skip_dup now boxName acc m0 hex]
        obtain ⟨L, h1, h2, h3, h4⟩ := ih acc
        refine ⟨L, h1, h2, ?_, ?_⟩
        · intro a ha
          exact ⟨List.mem_cons_of_mem _ ((h3 a ha).1), (h3 a ha).2⟩
        · intro hnd m hm
          rcases List.mem_cons.mp hm with hm0 | hmr
          · subst hm0
            constructor
            · rintro ⟨a, ha, hid⟩
              have := (h3 a ha).1
              rw [hid] at this
              exact absurd this (List.nodup_cons.mp hnd).1
            · rintro ⟨_, hno⟩
              exact absurd ((List.any_eq_true).mp hex) (by
                rintro ⟨a, ha, hp⟩
                exact hno ⟨a, ha, hp⟩)
          · exact h4 (List.nodup_cons.mp hnd).2 m hmr
      · have hex' : acc.alerts.any (isAnyLowAlert m0.id) = false := by
          cases h : acc.alerts.any (isAnyLowAlert m0.id) with
          | false => rfl
          | true => exact absurd h hex
        rw [lowMedStep_emit now boxName acc m0 hel hex']
        obtain ⟨L, h1, h2, h3, h4⟩ := ih
          { alerts := acc.alerts ++ [mkLowAlert now acc.ctr boxName m0 m0.currentCount]
            newAlerts := acc.newAlerts ++ [mkLowAlert now acc.ctr boxName m0 m0.currentCount]
            ctr := acc.ctr + 1 }
        refine ⟨mkLowAlert now acc.ctr boxName m0 m0.currentCount :: L, ?_, ?_, ?_, ?_⟩
        · rw [h1]
          simp
        · rw [h2]
          simp
        · intro a ha
          rcases List.mem_cons.mp ha with ha | ha
          · subst ha
            exact ⟨List.mem_cons_self _ _, rfl⟩
          · exact ⟨List.mem_cons_of_mem _ ((h3 a ha).1), (h3 a ha).2⟩
        · intro hnd m hm
          rcases List.mem_cons.mp hm with hm0 | hmr
          · subst hm0
            constructor
            · intro _
              refine ⟨hel, ?_⟩
              rintro ⟨a, ha, hp⟩
              rw [List.any_eq_false] at hex'
              exact hex' a ha hp
            · intro _
              exact ⟨mkLowAlert now acc.ctr boxName m m.currentCount,
                List.mem_cons_self _ _, rfl⟩
          · have hne : m.id ≠ m0.id := by
              intro hEq
              exact (List.nodup_cons.mp hnd).1 (List.mem_map.mpr ⟨m, hmr, hEq⟩)
            have hiff := h4 (List.nodup_cons.mp hnd).2 m hmr
            constructor
            · rintro ⟨a, ha, hid⟩
              rcases List.mem_cons.mp ha with ha | ha
              · subst ha
                exact absurd hid.symm (by simpa [mkLowAlert] using hne)
              · obtain ⟨hel2, hno⟩ := hiff.mp ⟨a, ha, hid⟩
                refine ⟨hel2, ?_⟩
                rintro ⟨x, hx, hp⟩
                exact hno ⟨x, by simp [hx], hp⟩
            · rintro ⟨hel2, hno⟩
              have hno' : ¬ ∃ a ∈ acc.alerts ++
                  [mkLowAlert now acc.ctr boxName m0 m0.currentCount],
                  isAnyLowAlert m.id a = true := by
                rintro ⟨x, hx, hp⟩
                rcases List.mem_append.mp hx with hx | hx
                · exact hno ⟨x, hx, hp⟩
                · rw [List.mem_singleton.mp hx] at hp
                  unfold isAnyLowAlert at hp
                  simp only [mkLowAlert, Bool.and_eq_true, beq_iff_eq] at hp
                  exact hne hp.1.symm
              obtain ⟨a, ha, hid⟩ := hiff.mpr ⟨hel2, hno'⟩
              exact ⟨a, List.mem_cons_of_mem _ ha, hid⟩
    · rw [lowMedStep_skip_inel now boxName acc m0 hel]
      obtain ⟨L, h1, h2, h3, h4⟩ := ih acc
      refine ⟨L, h1, h2, ?_, ?_⟩
      · intro a ha
        exact ⟨List.mem_cons_of_mem _ ((h3 a ha).1), (h3 a ha).2⟩
      · intro hnd m hm
        rcases List.mem_cons.mp hm with hm0 | hmr
        · subst hm0
          constructor
          · rintro ⟨a, ha, hid⟩
            have := (h3 a ha).1
            rw [hid] at this
            exact absurd this (List.nodup_cons.mp hnd).1
          · rintro ⟨hel2, _⟩
            exact absurd hel2 hel
        · exact h4 (List.nodup_cons.mp hnd).2 m hmr

theorem lowfold_box_main (now : Int) (boxes : List MedicineBox) (acc : LowAcc) :
    ∃ L : List Alert,
      (boxes.foldl (lowBoxStep now) acc).alerts = acc.alerts ++ L ∧
      (boxes.foldl (lowBoxStep now) acc).newAlerts = acc.newAlerts ++ L ∧
      (∀ a ∈ L, a.medicineId ∈ allMedIds boxes ∧ a.type = AlertType.low_count) ∧
      ((allMedIds boxes).Nodup →
        ∀ box ∈ boxes, ∀ m ∈ box.medicines,
          ((∃ a ∈ L, a.medicineId = m.id) ↔
            (isLowEligible m ∧ ¬ ∃ a ∈ acc.alerts, isAnyLowAlert m.id a = true))) := by
  induction boxes generalizing acc with
  | nil => exact ⟨[], by simp, by simp, by simp, by simp⟩
  | cons b0 rest ih =>
    rw [List.foldl_cons]
    obtain ⟨L0, g1, g2, g3, g4⟩ := lowfold_med_main now b0.name b0.medicines acc
    obtain ⟨L, h1, h2, h3, h4⟩ := ih (b0.medicines.foldl (lowMedStep now b0.name) acc)
    refine ⟨L0 ++ L, ?_, ?_, ?_, ?_⟩
    · show (rest.foldl (lowBoxStep now) (b0.medicines.foldl (lowMedStep now b0.name) acc)).alerts
        = acc.alerts ++ (L0 ++ L)
      rw [h1, g1, List.append_assoc]
    · show (rest.foldl (lowBoxStep now)
        (b0.medicines.foldl (lowMedStep now b0.name) acc)).newAlerts
        = acc.newAlerts ++ (L0 ++ L)
      rw [h2, g2, List.append_assoc]
    · intro a ha
      rw [allMedIds_cons]
      rcases List.mem_append.mp ha with ha | ha
      · exact ⟨List.mem_append_left _ ((g3 a ha).1), (g3 a ha).2⟩
      · exact ⟨List.mem_append_right _ ((h3 a ha).1), (h3 a ha).2⟩
    · intro hnd box hbox m hm
      rw [allMedIds_cons] at hnd
      obtain ⟨hnd0, hndrest, hdisj⟩ := List.nodup_append.mp hnd
      rcases List.mem_cons.mp hbox with hb0 | hbrest
      · subst hb0
        have hiff := g4 hnd0 m hm
        have hLno : ∀ a ∈ L, a.medicineId ≠ m.id := by
          intro a ha hEq
          have hmem := (h3 a ha).1
          rw [hEq] at hmem
          exact List.disjoint_left.mp hdisj (List.mem_map.mpr ⟨m, hm, rfl⟩) hmem
        constructor
        · rintro ⟨a, ha, hid⟩
          rcases List.mem_append.mp ha with ha | ha
          · exact hiff.mp ⟨a, ha, hid⟩
          · exact absurd hid (hLno a ha)
        · intro hr
          obtain ⟨a, ha, hid⟩ := hiff.mpr hr
          exact ⟨a, List.mem_append_left _ ha, hid⟩
      · have hmid : m.id ∈ allMedIds rest := by
          unfold allMedIds
          exact List.mem_map.mpr ⟨m, List.mem_flatMap.mpr ⟨box, hbrest, hm⟩, rfl⟩
        have hL0no : ∀ a ∈ L0, a.medicineId ≠ m.id := by
          intro a ha hEq
          have hmem := (g3 a ha).1
          rw [hEq] at hmem
          exact List.disjoint_left.mp hdisj hmem hmid
        have hiff := h4 hndrest box hbrest m hm
        have hacc : (¬ ∃ a ∈ (b0.medicines.foldl (lowMedStep now b0.name) acc).alerts,
            isAnyLowAlert m.id a = true) ↔
            (¬ ∃ a ∈ acc.alerts, isAnyLowAlert m.id a = true) := by
          rw [g1]
          constructor
          · intro hno ⟨a, ha, hp⟩
            exact hno ⟨a, List.mem_append_left _ ha, hp⟩
          · rintro hno ⟨a, ha, hp⟩
            rcases List.mem_append.mp ha with ha | ha
            · exact hno ⟨a, ha, hp⟩
            · unfold isAnyLowAlert at hp
              simp only [Bool.and_eq_true, beq_iff_eq] at hp
              exact hL0no a ha hp.1
        constructor
        · rintro ⟨a, ha, hid⟩
          rcases List.mem_append.mp ha with ha | ha
          · exact absurd hid (hL0no a ha)
          · obtain ⟨hel, hno⟩ := hiff.mp ⟨a, ha, hid⟩
            exact ⟨hel, hacc.mp hno⟩
        · rintro ⟨hel, hno⟩
          obtain ⟨a, ha, hid⟩ := hiff.mpr ⟨hel, hacc.mpr hno⟩
          exact ⟨a, List.mem_append_right _ ha, hid⟩

/-- C6: `checkLowMedicines` emits a `low_count` alert for a medicine if and
only if `0 < currentCount / timesPerDay ≤ 3` (rational division) and no
`low_count` alert for that medicine — read or unread — already exists in the
alert store.  Medicine ids are pairwise distinct, as the data model's
identity notion requires. -/
theorem C6_low_stock_alert_iff (now : Int) (ctr : Nat) (s : AppState)
    (Hnodup : (allMedIds s.boxes).Nodup) :
    ∀ box ∈ s.boxes, ∀ m ∈ box.medicines,
      ((∃ a ∈ (dataService.checkLowMedicines now ctr s).2.1,
          a.medicineId = m.id ∧ a.type = AlertType.low_count) ↔
        (0 < daysRemaining m ∧ daysRemaining m ≤ 3 ∧
          ¬ ∃ a ∈ s.alerts, (a.medicineId = m.id ∧ a.type = AlertType.low_count))) := by
  intro box hbox m hm
  obtain ⟨L, h1, h2, h3, h4⟩ := lowfold_box_main now s.boxes ⟨s.alerts, [], ctr⟩
  have hnew : (dataService.checkLowMedicines now ctr s).2.1 = L := by
    show (s.boxes.foldl (lowBoxStep now) ⟨s.alerts, [], ctr⟩).newAlerts = L
    rw [h2]
    rfl
  have hiff := h4 Hnodup box hbox m hm
  rw [hnew]
  have hconv : ∀ a : Alert, isAnyLowAlert m.id a = true ↔
      (a.medicineId = m.id ∧ a.type = AlertType.low_count) := by
    intro a
    unfold isAnyLowAlert
    simp [Bool.and_eq_true, beq_iff_eq]
  constructor
  · rintro ⟨a, ha, hid, _⟩
    obtain ⟨hel, hno⟩ := hiff.mp ⟨a, ha, hid⟩
    refine ⟨hel.2, hel.1, ?_⟩
    rintro ⟨x, hx, hp⟩
    exact hno ⟨x, hx, (hconv x).mpr hp⟩
  · rintro ⟨hpos, hle, hno⟩
    obtain ⟨a, ha, hid⟩ := hiff.mpr ⟨⟨hle, hpos⟩, by
      rintro ⟨x, hx, hp⟩
      exact hno ⟨x, hx, (hconv x).mp hp⟩⟩
    exact ⟨a, ha, hid, (h3 a ha).2⟩


/-! ## Witnesses -/

/-- Witness for C1 at a concrete one-box store. -/
theorem C1_witness :
    dateD 0 = "D" ∧ (allMedIds [boxA]).Nodup ∧
    ((∀ box ∈ [boxA], ∀ m ∈ box.medicines,
      "08:00" ∈ tokensOf m → 0 < m.currentCount →
      ¬ Blockedid dateD "D" "08:00" m.id [] →
      ∀ box' ∈ (dataService.checkMedicineTimes dateD "08:00" "D" 0 0 [boxA] []).boxes,
        ∀ m' ∈ box'.medicines, m'.id = m.id → m'.currentCount = m.currentCount - 1) ∧
    ((∀ box ∈ [boxA], ∀ m ∈ box.medicines, 0 ≤ m.currentCount) →
      ∀ box' ∈ (dataService.checkMedicineTimes dateD "08:00" "D" 0 0 [boxA] []).boxes,
        ∀ m' ∈ box'.medicines, 0 ≤ m'.currentCount)) :=
  ⟨rfl, by decide,
    C1_due_dose_decrements_once dateD "08:00" "D" 0 0 [boxA] [] rfl (by decide)⟩

/-- Witness for C2 at a concrete one-box store. -/
theorem C2_witness :
    dateD 0 = "D" ∧
    ((dataService.checkMedicineTimes dateD "08:00" "D" 0 1 (dataService.checkMedicineTimes dateD "08:00" "D" 0 0 [boxA] []).boxes (dataService.checkMedicineTimes dateD "08:00" "D" 0 0 [boxA] []).alerts).boxes = (dataService.checkMedicineTimes dateD "08:00" "D" 0 0 [boxA] []).boxes ∧
     (dataService.checkMedicineTimes dateD "08:00" "D" 0 1 (dataService.checkMedicineTimes dateD "08:00" "D" 0 0 [boxA] []).boxes (dataService.checkMedicineTimes dateD "08:00" "D" 0 0 [boxA] []).alerts).alerts = (dataService.checkMedicineTimes dateD "08:00" "D" 0 0 [boxA] []).alerts ∧
     (dataService.checkMedicineTimes dateD "08:00" "D" 0 1 (dataService.checkMedicineTimes dateD "08:00" "D" 0 0 [boxA] []).boxes (dataService.checkMedicineTimes dateD "08:00" "D" 0 0 [boxA] []).alerts).newAlerts = []) :=
  ⟨rfl, C2_second_run_is_noop dateD "08:00" "D" 0 0 1 [boxA] [] rfl⟩

/-- Witness for C3 (counts 4 and 1) at concrete medicines. -/
theorem C3_witness :
    medA.currentCount = 4 ∧ medA.timesPerDay = 1 ∧ tokensOf medA = ["08:00"] ∧
    (¬ Blockedid dateD "D" "08:00" medA.id []) ∧
    (∀ a ∈ ([] : List Alert), ¬ isUnreadLowAlert medA.id a = true) ∧
    medB.currentCount = 1 ∧ medB.timesPerDay = 1 ∧ tokensOf medB = ["08:00"] ∧
    (¬ Blockedid dateD "D" "08:00" medB.id []) ∧
    (((dataService.checkMedicineTimes dateD "08:00" "D" 0 0 [{ boxA with medicines := [medA] }] []).newAlerts.map Alert.type =
        [AlertType.medicine_time, AlertType.low_count] ∧
      (dataService.checkMedicineTimes dateD "08:00" "D" 0 0 [{ boxA with medicines := [medA] }] []).boxes =
        [{ boxA with medicines := [{ medA with currentCount := 3, updatedAt := 0 }] }]) ∧
     ((dataService.checkMedicineTimes dateD "08:00" "D" 0 0 [{ boxA with medicines := [medB] }] []).newAlerts.map Alert.type =
        [AlertType.medicine_time, AlertType.out_of_stock] ∧
      (dataService.checkMedicineTimes dateD "08:00" "D" 0 0 [{ boxA with medicines := [medB] }] []).boxes =
        [{ boxA with medicines := [{ medB with currentCount := 0, updatedAt := 0 }] }])) :=
  ⟨rfl, rfl, by decide, by decide, by decide, rfl, rfl, by decide, by decide,
    C3_low_count_and_out_of_stock dateD "08:00" "D" 0 0 0 boxA medA medB []
      rfl rfl (by decide) (by decide) (by decide) rfl rfl (by decide) (by decide)⟩

/-- Witness for C5 at a concrete state (box `boxC` with one alert stored). -/
theorem C5_witness :
    stateC.boxes.find? (fun x => x.id == "b3") = some boxC ∧
    ((∀ a, a ∈ (dataService.deleteMedicine "b3" "m3" 0 stateC).1.alerts ↔
      (a ∈ stateC.alerts ∧ a.medicineId ≠ "m3")) ∧
    (∀ a, a ∈ (dataService.deleteMedicineBox "b3" stateC).1.alerts ↔
      (a ∈ stateC.alerts ∧ ¬ (a.boxName = boxC.name ∨ ∃ m ∈ boxC.medicines, m.id = a.medicineId)))) :=
  ⟨rfl, C5_cascade_delete "b3" "m3" 0 stateC boxC rfl⟩

/-- Witness for C6 at a concrete low-stock state. -/
theorem C6_witness :
    (allMedIds stateC2.boxes).Nodup ∧
    (∀ box ∈ stateC2.boxes, ∀ m ∈ box.medicines,
      ((∃ a ∈ (dataService.checkLowMedicines 0 0 stateC2).2.1,
          a.medicineId = m.id ∧ a.type = AlertType.low_count) ↔
        (0 < daysRemaining m ∧ daysRemaining m ≤ 3 ∧
          ¬ ∃ a ∈ stateC2.alerts, (a.medicineId = m.id ∧ a.type = AlertType.low_count)))) :=
  ⟨by decide, C6_low_stock_alert_iff 0 0 stateC2 (by decide)⟩

/-- Witness for C7 at a concrete single-alert store. -/
theorem C7_witness :
    ((([alertU] : List Alert).map (fun a => a.id)).Nodup) ∧
    (((∃ a ∈ [alertU], a.id = "a1") →
      ∀ a, a ∈ dataService.markAlertAsRead "a1" [alertU] ↔
        (a ∈ [alertU] ∧ a.isRead = false ∧ a.id ≠ "a1")) ∧
    ((∀ a ∈ [alertU], a.id ≠ "a1") →
      dataService.markAlertAsRead "a1" [alertU] = [alertU])) :=
  ⟨by decide, C7_mark_read_deletes "a1" [alertU] (by decide)⟩

/-- Witness for C8 at a concrete empty state and a concrete one-box state. -/
theorem C8_witness :
    (∀ b ∈ stateEmpty.boxes, b.id ≠ "b3") ∧
    stateC2.boxes = [] ++ boxC :: [] ∧ (∀ x ∈ ([] : List MedicineBox), x.id ≠ "b3") ∧
    boxC.id = "b3" ∧ (∀ m ∈ boxC.medicines, m.id ≠ "zz") ∧
    (dataService.updateMedicineBox "b3" (fun b => b) 0 stateEmpty =
      (stateEmpty, Except.error "Medicine box not found") ∧
    dataService.addMedicine "b3" medA "n1" "l1" 0 stateEmpty =
      (stateEmpty, Except.error "Medicine box not found") ∧
    dataService.updateMedicine "b3" "zz" (fun m => m) 0 stateEmpty =
      (stateEmpty, Except.error "Medicine box not found") ∧
    dataService.deleteMedicine "b3" "zz" 0 stateEmpty =
      (stateEmpty, Except.error "Medicine box not found") ∧
    dataService.deleteMedicineBox "b3" stateEmpty = (stateEmpty, Except.ok ()) ∧
    dataService.updateMedicine "b3" "zz" (fun m => m) 0 stateC2 =
      (stateC2, Except.error "Medicine not found") ∧
    (dataService.deleteMedicine "b3" "zz" 0 stateC2).2 = Except.ok ()) :=
  ⟨by decide, rfl, by decide, rfl, by decide,
    C8_not_found_behaviour "b3" "zz" (fun b => b) (fun m => m) medA "n1" "l1" 0
      stateEmpty (by decide) stateC2 [] boxC [] rfl (by decide) rfl (by decide)⟩
